import Mathlib

/-!
Verification of the constant-product AMM in
`src/backend/automated_market_maker.py` (class `AutomatedMarketMaker`).

The Python code is shallowly embedded over exact arithmetic: all float
amounts become `ℚ` (or `ℝ` where the source uses `math.sqrt`), timestamps
become `ℚ` seconds, `datetime.utcnow()` becomes an explicit `now`
parameter, and each `raise ValueError(...)` site becomes a constructor of
`AmmError` carried in `Except`.  Database / blockchain collaborators that
the source stubs out (`_get_pool_by_id`, `_store_liquidity_pool`,
`Domain.query`, token transfers) are passed in as explicit lookup
functions or threaded record stores.
-/

namespace AMMSpec

/-- Embeds the `LiquidityPool` dataclass.  Amount-valued fields are
parametric in `α` so the same record serves the `ℚ`-valued trading
operations and the `ℝ`-valued pool creation (whose share minting uses
`math.sqrt`). -/
structure LiquidityPool (α : Type) where
  pool_id : String
  domain_id : Nat
  base_token : String
  domain_token_reserve : α
  base_token_reserve : α
  total_liquidity_tokens : α
  fee_rate : α
  created_at : ℚ
  last_updated : ℚ
deriving DecidableEq, Repr

/-- Embeds the `LiquidityPosition` dataclass. -/
structure LiquidityPosition (α : Type) where
  position_id : String
  pool_id : String
  user_id : Nat
  liquidity_tokens : α
  initial_domain_amount : α
  initial_base_amount : α
  created_at : ℚ
  rewards_earned : α
deriving DecidableEq, Repr

/-- Embeds the `TradeQuote` dataclass (trade quotes are produced by the
`ℚ`-valued pricing path only). -/
structure TradeQuote where
  input_token : String
  output_token : String
  input_amount : ℚ
  output_amount : ℚ
  price_impact : ℚ
  fee_amount : ℚ
  minimum_output : ℚ
  valid_until : ℚ
deriving DecidableEq, Repr

/-- One constructor per distinct `raise` site of the source (messages
paraphrased into a typed error). `creationFailed` stands for the generic
`Exception("Pool creation failed: ...")` wrapper around an arithmetic
error (negative square root / division by zero) inside `create_liquidity_pool`'s
`try` block. -/
inductive AmmError where
  | domainNotFound
  | domainNotTokenized
  | unsupportedBaseToken
  | insufficientLiquidity
  | poolAlreadyExists
  | poolNotFound
  | invalidInputToken
  | insufficientLiquidityTokens
  | quoteExpired
  | excessivePriceImpact
  | creationFailed
deriving DecidableEq, Repr

/-! ### AMM parameters (`AutomatedMarketMaker.__init__`) -/

/-- `self.default_fee_rate = 0.003`. -/
def default_fee_rate : ℚ := 3 / 1000

/-- `self.slippage_tolerance = 0.02`. -/
def slippage_tolerance : ℚ := 2 / 100

/-- `self.minimum_liquidity = 1000`. -/
def minimum_liquidity : ℚ := 1000

/-- `self.price_impact_threshold = 0.05`. -/
def price_impact_threshold : ℚ := 5 / 100

/-- `self.base_apy = 0.05`. -/
def base_apy : ℚ := 5 / 100

/-- `self.volume_multiplier = 0.1`. -/
def volume_multiplier : ℚ := 1 / 10

/-- `self.loyalty_bonus = 0.02`. -/
def loyalty_bonus : ℚ := 2 / 100

/-- Keys of `self.supported_base_tokens`. -/
def supported_base_tokens : List String := ["USDC", "ETH", "MATIC"]

/-- `_get_trading_volume_24h` (source stub returning a constant). -/
def get_trading_volume_24h (_pool_id : String) : ℚ := 1000

/-- Quote TTL: `valid_until = datetime.utcnow() + timedelta(minutes=5)`,
in seconds. -/
def quote_ttl : ℚ := 5 * 60

/-! ### Pricing engine: `get_trade_quote` -/

/-- Embeds `AutomatedMarketMaker.get_trade_quote`.  The pool store is the
`pools` lookup argument (the source's `_get_pool_by_id` is a database
stub).  Python's `slippage_tolerance or self.slippage_tolerance` treats
both `None` and `0.0` as absent, hence the zero test. -/
def get_trade_quote (pools : String → Option (LiquidityPool ℚ))
    (pool_id input_token : String) (input_amount : ℚ)
    (slippage_tol : Option ℚ) (now : ℚ) : Except AmmError TradeQuote :=
  match pools pool_id with
  | none => .error .poolNotFound
  | some pool =>
    let slippage : ℚ :=
      match slippage_tol with
      | none => slippage_tolerance
      | some s => if s = 0 then slippage_tolerance else s
    let sides : Except AmmError (ℚ × ℚ × String) :=
      if input_token = "domain" then
        .ok (pool.domain_token_reserve, pool.base_token_reserve, pool.base_token)
      else if input_token = pool.base_token then
        .ok (pool.base_token_reserve, pool.domain_token_reserve, "domain")
      else
        .error .invalidInputToken
    match sides with
    | .error e => .error e
    | .ok (input_reserve, output_reserve, output_token) =>
      let input_amount_with_fee := input_amount * (1 - pool.fee_rate)
      let output_amount := output_reserve * input_amount_with_fee /
        (input_reserve + input_amount_with_fee)
      let price_before := output_reserve / input_reserve
      let new_input_reserve := input_reserve + input_amount
      let new_output_reserve := output_reserve - output_amount
      let price_after := new_output_reserve / new_input_reserve
      let price_impact := |price_after - price_before| / price_before
      let fee_amount := input_amount * pool.fee_rate
      let minimum_output := output_amount * (1 - slippage)
      .ok { input_token := input_token
            output_token := output_token
            input_amount := input_amount
            output_amount := output_amount
            price_impact := price_impact
            fee_amount := fee_amount
            minimum_output := minimum_output
            valid_until := now + quote_ttl }

/-! ### Trade executor: `execute_trade` -/

/-- Embeds `AutomatedMarketMaker.execute_trade` (its pool mutation; the
transaction-record bookkeeping has no effect on pool state).  Check order
follows the source exactly: quote expiry, then pool lookup, then price
impact; the reserve update branches on `quote.input_token == 'domain'`. -/
def execute_trade (pools : String → Option (LiquidityPool ℚ))
    (pool_id : String) (quote : TradeQuote) (now : ℚ) :
    Except AmmError (LiquidityPool ℚ) :=
  if quote.valid_until < now then .error .quoteExpired
  else
    match pools pool_id with
    | none => .error .poolNotFound
    | some pool =>
      if price_impact_threshold < quote.price_impact then
        .error .excessivePriceImpact
      else if quote.input_token = "domain" then
        .ok { pool with
              domain_token_reserve := pool.domain_token_reserve + quote.input_amount
              base_token_reserve := pool.base_token_reserve - quote.output_amount
              last_updated := now }
      else
        .ok { pool with
              base_token_reserve := pool.base_token_reserve + quote.input_amount
              domain_token_reserve := pool.domain_token_reserve - quote.output_amount
              last_updated := now }

/-! ### Position store

The source keeps positions behind database stubs (`_get_user_position`,
`_store_liquidity_position`, `_update_liquidity_position`,
`_remove_liquidity_position`, all `pass`/`None`).
Modelled from the spec: the Pool Store persistence collaborator (§6)
holds the position records; we represent it as a list of
`LiquidityPosition` records keyed by `(pool_id, user_id)` with
first-match lookup / in-place update / removal, matching the call sites
in `add_liquidity` and `remove_liquidity`. -/

/-- True when `p` is the position of `user_id` in `pool_id`. -/
def position_matches (pool_id : String) (user_id : Nat)
    (p : LiquidityPosition ℚ) : Bool :=
  p.pool_id = pool_id ∧ p.user_id = user_id

/-- `_get_user_position`: first matching record. -/
def find_position (positions : List (LiquidityPosition ℚ))
    (pool_id : String) (user_id : Nat) : Option (LiquidityPosition ℚ) :=
  positions.find? (position_matches pool_id user_id)

/-- Replace the first record satisfying `P` by its image under `f`. -/
def update_first {α : Type} (P : α → Bool) (f : α → α) : List α → List α
  | [] => []
  | a :: l => if P a then f a :: l else a :: update_first P f l

/-- Remove the first record satisfying `P`. -/
def erase_first {α : Type} (P : α → Bool) : List α → List α
  | [] => []
  | a :: l => if P a then l else a :: erase_first P l

/-- Total liquidity tokens held across a list of positions. -/
def sum_tokens (l : List (LiquidityPosition ℚ)) : ℚ :=
  (l.map (fun p => p.liquidity_tokens)).sum

/-! ### Rewards: `_calculate_liquidity_rewards` -/

/-- Embeds `_calculate_liquidity_rewards`.  `(utcnow() - created_at).days`
floors the elapsed seconds to whole days (Python `timedelta.days` floors
toward minus infinity, as does `Int.floor`). -/
def calculate_liquidity_rewards (position : LiquidityPosition ℚ)
    (pool : LiquidityPool ℚ) (now : ℚ) : ℚ :=
  let days_active : ℤ := ⌊(now - position.created_at) / 86400⌋
  let base_rewards := position.initial_base_amount * base_apy * ((days_active : ℚ) / 365)
  let volume_bonus := get_trading_volume_24h pool.pool_id * volume_multiplier *
    ((days_active : ℚ) / 365)
  let loyalty := if 30 < days_active then base_rewards * loyalty_bonus else 0
  base_rewards + volume_bonus + loyalty

/-! ### Liquidity manager: `add_liquidity` -/

/-- Return record of `add_liquidity` (the fields of the source's result
dict that concern pool state, plus the updated pool and position store). -/
structure AddLiquidityResult where
  liquidity_tokens_minted : ℚ
  domain_amount_used : ℚ
  base_amount_used : ℚ
  unused_domain : ℚ
  unused_base : ℚ
  new_pool_share : ℚ
  pool : LiquidityPool ℚ
  positions : List (LiquidityPosition ℚ)
deriving DecidableEq, Repr

/-- Embeds `AutomatedMarketMaker.add_liquidity`.  Note that the source
computes `new_pool_share` from `pool.total_liquidity_tokens` *after* the
pool has been updated in place, i.e. against the post-deposit supply. -/
def add_liquidity (pools : String → Option (LiquidityPool ℚ))
    (positions : List (LiquidityPosition ℚ)) (pool_id : String)
    (user_id : Nat) (domain_amount base_amount : ℚ) (now : ℚ) :
    Except AmmError AddLiquidityResult :=
  match pools pool_id with
  | none => .error .poolNotFound
  | some pool =>
    let current_ratio := pool.base_token_reserve / pool.domain_token_reserve
    let optimal_base_amount := domain_amount * current_ratio
    let optimal_domain_amount := base_amount / current_ratio
    let final_domain_amount :=
      if optimal_base_amount ≤ base_amount then domain_amount else optimal_domain_amount
    let final_base_amount :=
      if optimal_base_amount ≤ base_amount then optimal_base_amount else base_amount
    let liquidity_tokens :=
      min ((final_domain_amount / pool.domain_token_reserve) * pool.total_liquidity_tokens)
          ((final_base_amount / pool.base_token_reserve) * pool.total_liquidity_tokens)
    let pool2 : LiquidityPool ℚ :=
      { pool with
        domain_token_reserve := pool.domain_token_reserve + final_domain_amount
        base_token_reserve := pool.base_token_reserve + final_base_amount
        total_liquidity_tokens := pool.total_liquidity_tokens + liquidity_tokens
        last_updated := now }
    let positions2 :=
      match find_position positions pool_id user_id with
      | some _ =>
        update_first (position_matches pool_id user_id)
          (fun p =>
            { p with
              liquidity_tokens := p.liquidity_tokens + liquidity_tokens
              initial_domain_amount := p.initial_domain_amount + final_domain_amount
              initial_base_amount := p.initial_base_amount + final_base_amount })
          positions
      | none =>
        positions ++
          [{ position_id := "POS_" ++ pool_id ++ "_" ++ toString user_id
             pool_id := pool_id
             user_id := user_id
             liquidity_tokens := liquidity_tokens
             initial_domain_amount := final_domain_amount
             initial_base_amount := final_base_amount
             created_at := now
             rewards_earned := 0 }]
    .ok { liquidity_tokens_minted := liquidity_tokens
          domain_amount_used := final_domain_amount
          base_amount_used := final_base_amount
          unused_domain := domain_amount - final_domain_amount
          unused_base := base_amount - final_base_amount
          new_pool_share := (liquidity_tokens / pool2.total_liquidity_tokens) * 100
          pool := pool2
          positions := positions2 }

/-! ### Liquidity manager: `remove_liquidity` -/

/-- Return record of `remove_liquidity`. -/
structure RemoveLiquidityResult where
  domain_amount_received : ℚ
  base_amount_received : ℚ
  rewards_earned : ℚ
  liquidity_tokens_burned : ℚ
  pool : LiquidityPool ℚ
  positions : List (LiquidityPosition ℚ)
deriving DecidableEq, Repr

/-- Embeds `AutomatedMarketMaker.remove_liquidity`.  The guard is the
source's `if not position or position.liquidity_tokens < liquidity_tokens`;
a position left with `liquidity_tokens <= 0` is deleted from the store. -/
def remove_liquidity (pools : String → Option (LiquidityPool ℚ))
    (positions : List (LiquidityPosition ℚ)) (pool_id : String)
    (user_id : Nat) (liquidity_tokens : ℚ) (now : ℚ) :
    Except AmmError RemoveLiquidityResult :=
  match pools pool_id with
  | none => .error .poolNotFound
  | some pool =>
    match find_position positions pool_id user_id with
    | none => .error .insufficientLiquidityTokens
    | some position =>
      if position.liquidity_tokens < liquidity_tokens then
        .error .insufficientLiquidityTokens
      else
        let share := liquidity_tokens / pool.total_liquidity_tokens
        let domain_amount := pool.domain_token_reserve * share
        let base_amount := pool.base_token_reserve * share
        let rewards := calculate_liquidity_rewards position pool now
        let pool2 : LiquidityPool ℚ :=
          { pool with
            domain_token_reserve := pool.domain_token_reserve - domain_amount
            base_token_reserve := pool.base_token_reserve - base_amount
            total_liquidity_tokens := pool.total_liquidity_tokens - liquidity_tokens
            last_updated := now }
        let remaining := position.liquidity_tokens - liquidity_tokens
        let positions2 :=
          if remaining ≤ 0 then
            erase_first (position_matches pool_id user_id) positions
          else
            update_first (position_matches pool_id user_id)
              (fun p =>
                { p with
                  liquidity_tokens := p.liquidity_tokens - liquidity_tokens
                  rewards_earned := p.rewards_earned + rewards })
              positions
        .ok { domain_amount_received := domain_amount
              base_amount_received := base_amount
              rewards_earned := rewards
              liquidity_tokens_burned := liquidity_tokens
              pool := pool2
              positions := positions2 }

/-! ### Pool creation: `create_liquidity_pool`

This is the one `ℝ`-valued operation: initial share minting is
`math.sqrt(initial_domain_amount * initial_base_amount)`. -/

/-- Outcome of `create_liquidity_pool`: the returned value (or typed
error) together with what was written to the stores before returning.
Modelled from the spec: `_store_liquidity_pool` / `_store_liquidity_position`
are `pass` stubs in the source; per §6 they persist the records in the
Pool Store, so we record the stored pool/position lists explicitly.  The
source has no rollback, so records stored before a later failure stay
stored. -/
structure CreateOutcome where
  result : Except AmmError (LiquidityPool ℝ × LiquidityPosition ℝ)
  stored_pools : List (LiquidityPool ℝ)
  stored_positions : List (LiquidityPosition ℝ)

/-- Embeds `AutomatedMarketMaker.create_liquidity_pool`.

`domains` stands for `Domain.query.get`: `none` when the domain row is
missing, `some tokenized` otherwise with `tokenized` the truthiness of
`domain.token_id`.  `existing_pool` stands for
`_get_pool_by_domain_and_base` (a stub returning `None` in the source,
kept as a parameter of the Pool Store collaborator).

Python partiality inside the `try` block is made explicit:
`math.sqrt` of a negative product raises (caught and re-raised as the
generic creation failure) *before* anything is stored, and the
`initial_base_amount / initial_domain_amount` in the result dict raises
`ZeroDivisionError` when `initial_domain_amount == 0` — but only *after*
the pool and position have been stored.  Note there is no check that
`initial_domain_amount` is positive. -/
noncomputable def create_liquidity_pool (domains : Nat → Option Bool)
    (existing_pool : Nat → String → Option (LiquidityPool ℝ))
    (domain_id : Nat) (base_token : String)
    (initial_domain_amount initial_base_amount : ℝ)
    (creator_id : Nat) (now : ℚ) : CreateOutcome :=
  match domains domain_id with
  | none => ⟨.error .domainNotFound, [], []⟩
  | some tokenized =>
    if !tokenized then ⟨.error .domainNotTokenized, [], []⟩
    else if base_token ∉ supported_base_tokens then
      ⟨.error .unsupportedBaseToken, [], []⟩
    else if initial_base_amount < (minimum_liquidity : ℝ) then
      ⟨.error .insufficientLiquidity, [], []⟩
    else if (existing_pool domain_id base_token).isSome then
      ⟨.error .poolAlreadyExists, [], []⟩
    else if initial_domain_amount * initial_base_amount < 0 then
      ⟨.error .creationFailed, [], []⟩
    else
      let initial_liquidity := Real.sqrt (initial_domain_amount * initial_base_amount)
      let pool_id := "POOL_" ++ toString domain_id ++ "_" ++ base_token ++ "_"
        ++ toString ⌊now⌋
      let pool : LiquidityPool ℝ :=
        { pool_id := pool_id
          domain_id := domain_id
          base_token := base_token
          domain_token_reserve := initial_domain_amount
          base_token_reserve := initial_base_amount
          total_liquidity_tokens := initial_liquidity
          fee_rate := (default_fee_rate : ℝ)
          created_at := now
          last_updated := now }
      let position : LiquidityPosition ℝ :=
        { position_id := "POS_" ++ pool_id ++ "_" ++ toString creator_id
          pool_id := pool_id
          user_id := creator_id
          liquidity_tokens := initial_liquidity
          initial_domain_amount := initial_domain_amount
          initial_base_amount := initial_base_amount
          created_at := now
          rewards_earned := 0 }
      if initial_domain_amount = 0 then
        ⟨.error .creationFailed, [pool], [position]⟩
      else
        ⟨.ok (pool, position), [pool], [position]⟩

/-! ### Impermanent loss: `_calculate_impermanent_loss` -/

/-- Embeds `_calculate_impermanent_loss` (returns the IL as a percentage,
`il * 100`). -/
noncomputable def calculate_impermanent_loss (position : LiquidityPosition ℝ)
    (pool : LiquidityPool ℝ) : ℝ :=
  let initial_ratio := position.initial_base_amount / position.initial_domain_amount
  let current_ratio := pool.base_token_reserve / pool.domain_token_reserve
  let ratio_change := current_ratio / initial_ratio
  let il := 2 * Real.sqrt ratio_change / (1 + ratio_change) - 1
  il * 100

/-! ### Single-pool state machine

Sequences of mutations against one pool, wiring the operations above to
a concrete Pool Store holding exactly that pool and its positions. -/

/-- A pool together with the Pool Store's position records for it. -/
structure AmmState where
  pool : LiquidityPool ℚ
  positions : List (LiquidityPosition ℚ)
deriving DecidableEq, Repr

/-- The Pool Store lookup exposing exactly this pool. -/
def pool_store (pool : LiquidityPool ℚ) : String → Option (LiquidityPool ℚ) :=
  fun pid => if pid = pool.pool_id then some pool else none

/-- One requested swap: the quote is taken from the pool's current state
and immediately submitted to `execute_trade` (same clock instant), as in
the quote-then-execute flow of the source. -/
structure SwapRequest where
  input_token : String
  amount : ℚ
  now : ℚ
deriving DecidableEq, Repr

/-- Quote-then-execute; a failing quote or a rejected execution leaves
the state unchanged (all source checks precede any mutation). -/
def swap_step (s : AmmState) (r : SwapRequest) : AmmState :=
  match get_trade_quote (pool_store s.pool) s.pool.pool_id r.input_token
      r.amount none r.now with
  | .error _ => s
  | .ok q =>
    match execute_trade (pool_store s.pool) s.pool.pool_id q r.now with
    | .error _ => s
    | .ok pool2 => { s with pool := pool2 }

/-- Run a list of quote-then-execute swaps. -/
def run_swaps (s : AmmState) : List SwapRequest → AmmState
  | [] => s
  | r :: rs => run_swaps (swap_step s r) rs

/-- A pool mutation: swap, liquidity addition, or liquidity removal. -/
inductive AmmOp where
  | swap (input_token : String) (amount now : ℚ)
  | addLiq (user_id : Nat) (domain_amount base_amount now : ℚ)
  | removeLiq (user_id : Nat) (tokens now : ℚ)
deriving DecidableEq, Repr

/-- Apply one mutation; a rejected operation leaves the state unchanged
(every source check precedes the reserve updates). -/
def apply_op (s : AmmState) : AmmOp → AmmState
  | .swap input_token amount now => swap_step s ⟨input_token, amount, now⟩
  | .addLiq user_id domain_amount base_amount now =>
    match add_liquidity (pool_store s.pool) s.positions s.pool.pool_id
        user_id domain_amount base_amount now with
    | .error _ => s
    | .ok r => ⟨r.pool, r.positions⟩
  | .removeLiq user_id tokens now =>
    match remove_liquidity (pool_store s.pool) s.positions s.pool.pool_id
        user_id tokens now with
    | .error _ => s
    | .ok r => ⟨r.pool, r.positions⟩

/-- Apply a list of mutations in order. -/
def apply_ops (s : AmmState) : List AmmOp → AmmState
  | [] => s
  | op :: ops => apply_ops (apply_op s op) ops

/-- Side conditions under which the corresponding Python call runs
without raising `ZeroDivisionError` (quotes and deposits divide by the
reserves, removal divides by the share supply) and supplies genuinely
positive amounts. -/
def ValidOp (s : AmmState) : AmmOp → Prop
  | .swap _ amount _ =>
    0 < amount ∧ 0 < s.pool.domain_token_reserve ∧ 0 < s.pool.base_token_reserve
  | .addLiq _ domain_amount base_amount _ =>
    0 < domain_amount ∧ 0 < base_amount ∧
    0 < s.pool.domain_token_reserve ∧ 0 < s.pool.base_token_reserve
  | .removeLiq _ tokens _ =>
    0 < tokens ∧ 0 < s.pool.total_liquidity_tokens

/-- A sequence of mutations each valid in the state it runs in. -/
def ValidSeq : AmmState → List AmmOp → Prop
  | _, [] => True
  | s, op :: ops => ValidOp s op ∧ ValidSeq (apply_op s op) ops

/-- Well-formedness of the ledger state: non-negative reserves and share
supply, a fee rate in `[0,1)`, non-negative positions all belonging to
this pool, and positions accounting exactly for the share supply. -/
def Inv (s : AmmState) : Prop :=
  0 ≤ s.pool.domain_token_reserve ∧ 0 ≤ s.pool.base_token_reserve ∧
  0 ≤ s.pool.total_liquidity_tokens ∧
  0 ≤ s.pool.fee_rate ∧ s.pool.fee_rate < 1 ∧
  (∀ p ∈ s.positions, 0 ≤ p.liquidity_tokens ∧ p.pool_id = s.pool.pool_id) ∧
  sum_tokens s.positions = s.pool.total_liquidity_tokens

/-! ### Concrete fixtures used by witnesses and counterexamples -/

/-- The pool of the spec's worked scenario: reserves `(1000, 5000)`,
fee `0.003` (share supply as in the source's `_get_pool_by_id` stub). -/
def samplePool : LiquidityPool ℚ :=
  { pool_id := "P"
    domain_id := 1
    base_token := "USDC"
    domain_token_reserve := 1000
    base_token_reserve := 5000
    total_liquidity_tokens := 2236
    fee_rate := 3 / 1000
    created_at := 0
    last_updated := 0 }

/-- A creator position holding the sample pool's whole share supply. -/
def samplePosition : LiquidityPosition ℚ :=
  { position_id := "POS_P_1"
    pool_id := "P"
    user_id := 1
    liquidity_tokens := 2236
    initial_domain_amount := 1000
    initial_base_amount := 5000
    created_at := 0
    rewards_earned := 0 }

/-- Sample single-pool ledger state. -/
def sampleState : AmmState := ⟨samplePool, [samplePosition]⟩

/-- Placeholder quote for `Option.getD` extraction in closed statements. -/
def dummyQuote : TradeQuote :=
  { input_token := ""
    output_token := ""
    input_amount := 0
    output_amount := 0
    price_impact := 0
    fee_amount := 0
    minimum_output := 0
    valid_until := 0 }

/-- A pool store with no pools (for exercising the missing-pool path). -/
def empty_pool_store : String → Option (LiquidityPool ℚ) := fun _ => none

/-- A quote that is expired at `now = 200` and carries a price impact far
above the 5% threshold. -/
def impactfulQuote : TradeQuote :=
  { dummyQuote with valid_until := 100, price_impact := 1 }

/-- The quote the sample pool issues for selling 10 domain tokens at
`now = 0`. -/
def sampleDomainQuote : TradeQuote :=
  (get_trade_quote (pool_store samplePool) "P" "domain" 10 none 0).toOption.getD dummyQuote

/-- The sample pool after executing `sampleDomainQuote`. -/
def sampleTradedPool : LiquidityPool ℚ :=
  (execute_trade (pool_store samplePool) "P" sampleDomainQuote 0).toOption.getD samplePool

/-- The sample state after its provider withdraws 2233 of the 2236
shares, leaving reserves `(750/559, 3750/559)`. -/
def drainedState : AmmState := apply_op sampleState (.removeLiq 1 2233 0)

/-- Placeholder addition result for `Option.getD` extraction. -/
def dummyAdd : AddLiquidityResult :=
  { liquidity_tokens_minted := 0
    domain_amount_used := 0
    base_amount_used := 0
    unused_domain := 0
    unused_base := 0
    new_pool_share := 0
    pool := samplePool
    positions := [] }

/-- Placeholder removal result for `Option.getD` extraction. -/
def dummyRemove : RemoveLiquidityResult :=
  { domain_amount_received := 0
    base_amount_received := 0
    rewards_earned := 0
    liquidity_tokens_burned := 0
    pool := samplePool
    positions := [] }

/-- A domain table in which every id resolves to a tokenized domain. -/
def sampleDomains : Nat → Option Bool := fun _ => some true

/-- A pool store with no pool for any (domain, base) pair. -/
def no_pools : Nat → String → Option (LiquidityPool ℝ) := fun _ _ => none

/-- Placeholder `ℝ`-valued pool for `List.headD` extraction. -/
noncomputable def dummyPoolR : LiquidityPool ℝ :=
  { pool_id := ""
    domain_id := 0
    base_token := ""
    domain_token_reserve := 0
    base_token_reserve := 0
    total_liquidity_tokens := 0
    fee_rate := 0
    created_at := 0
    last_updated := 0 }

/-- A position opened at price ratio 1 (deposited 1 domain per 1 base). -/
noncomputable def ilPosition : LiquidityPosition ℝ :=
  { position_id := "POS_IL"
    pool_id := "P"
    user_id := 1
    liquidity_tokens := 1
    initial_domain_amount := 1
    initial_base_amount := 1
    created_at := 0
    rewards_earned := 0 }

/-- A pool whose price ratio has doubled relative to `ilPosition`. -/
noncomputable def ilPool : LiquidityPool ℝ :=
  { pool_id := "P"
    domain_id := 1
    base_token := "USDC"
    domain_token_reserve := 1
    base_token_reserve := 2
    total_liquidity_tokens := 1
    fee_rate := 0
    created_at := 0
    last_updated := 0 }

/-! ### Helper lemmas: case analysis of the pricing and execution paths -/

/-- A fallible computation known to succeed returns exactly the value
extracted from it by `toOption.getD`. -/
lemma Except_eq_ok_getD {ε α : Type} (e : Except ε α) (d : α) (h : e.isOk = true) :
    e = .ok (e.toOption.getD d) := by
  cases e with
  | error x => simp [Except.isOk, Except.toBool] at h
  | ok x => simp [Except.toOption]

/-- `pool_store` resolves the pool's own id. -/
lemma pool_store_self (pool : LiquidityPool ℚ) :
    pool_store pool pool.pool_id = some pool := by
  simp [pool_store]

/-- Field content of a successfully returned quote. -/
lemma get_trade_quote_ok_fields (pools : String → Option (LiquidityPool ℚ))
    (pool_id input_token : String) (input_amount : ℚ) (slip : Option ℚ) (now : ℚ)
    (pool : LiquidityPool ℚ) (q : TradeQuote) (hpool : pools pool_id = some pool)
    (hq : get_trade_quote pools pool_id input_token input_amount slip now = .ok q) :
    q.input_token = input_token ∧ q.input_amount = input_amount ∧
    q.valid_until = now + quote_ttl ∧
    ((input_token = "domain" ∧
        q.output_amount =
          pool.base_token_reserve * (input_amount * (1 - pool.fee_rate)) /
            (pool.domain_token_reserve + input_amount * (1 - pool.fee_rate))) ∨
      (input_token ≠ "domain" ∧ input_token = pool.base_token ∧
        q.output_amount =
          pool.domain_token_reserve * (input_amount * (1 - pool.fee_rate)) /
            (pool.base_token_reserve + input_amount * (1 - pool.fee_rate)))) := by
  simp only [get_trade_quote, hpool] at hq
  by_cases hdom : input_token = "domain"
  · simp only [if_pos hdom] at hq
    simp only [Except.ok.injEq] at hq
    subst hq
    exact ⟨rfl, rfl, rfl, Or.inl ⟨hdom, rfl⟩⟩
  · simp only [if_neg hdom] at hq
    by_cases hbase : input_token = pool.base_token
    · simp only [if_pos hbase] at hq
      simp only [Except.ok.injEq] at hq
      subst hq
      exact ⟨rfl, rfl, rfl, Or.inr ⟨hdom, hbase, rfl⟩⟩
    · simp only [if_neg hbase] at hq
      exact absurd hq (by simp)

/-- Effect of a successful `execute_trade`: the identity fields, fee rate
and share supply are untouched, `last_updated` is stamped, and the
reserves move by the quote's amounts on the side selected by
`quote.input_token`. -/
lemma execute_trade_ok_cases (pools : String → Option (LiquidityPool ℚ))
    (pool_id : String) (quote : TradeQuote) (now : ℚ)
    (pool pool2 : LiquidityPool ℚ) (hpool : pools pool_id = some pool)
    (hexec : execute_trade pools pool_id quote now = .ok pool2) :
    pool2.pool_id = pool.pool_id ∧ pool2.domain_id = pool.domain_id ∧
    pool2.base_token = pool.base_token ∧
    pool2.total_liquidity_tokens = pool.total_liquidity_tokens ∧
    pool2.fee_rate = pool.fee_rate ∧ pool2.created_at = pool.created_at ∧
    pool2.last_updated = now ∧
    ((quote.input_token = "domain" ∧
        pool2.domain_token_reserve = pool.domain_token_reserve + quote.input_amount ∧
        pool2.base_token_reserve = pool.base_token_reserve - quote.output_amount) ∨
      (quote.input_token ≠ "domain" ∧
        pool2.base_token_reserve = pool.base_token_reserve + quote.input_amount ∧
        pool2.domain_token_reserve = pool.domain_token_reserve - quote.output_amount)) := by
  simp only [execute_trade, hpool] at hexec
  by_cases hexp : quote.valid_until < now
  · rw [if_pos hexp] at hexec
    exact absurd hexec (by simp)
  · rw [if_neg hexp] at hexec
    by_cases himp : price_impact_threshold < quote.price_impact
    · rw [if_pos himp] at hexec
      exact absurd hexec (by simp)
    · rw [if_neg himp] at hexec
      by_cases hdom : quote.input_token = "domain"
      · rw [if_pos hdom] at hexec
        simp only [Except.ok.injEq] at hexec
        subst hexec
        exact ⟨rfl, rfl, rfl, rfl, rfl, rfl, rfl, Or.inl ⟨hdom, rfl, rfl⟩⟩
      · rw [if_neg hdom] at hexec
        simp only [Except.ok.injEq] at hexec
        subst hexec
        exact ⟨rfl, rfl, rfl, rfl, rfl, rfl, rfl, Or.inr ⟨hdom, rfl, rfl⟩⟩


/-! ## C1: quote pricing formula -/

/-- C1: for a pool with positive reserves, fee rate in `[0,1)` and a
positive input, `get_trade_quote` prices the trade by the fee-adjusted
constant-product formula
`output_amount = output_reserve * effective_input / (input_reserve + effective_input)`
with `effective_input = input_amount * (1 - fee_rate)`, and charges
`fee_amount = input_amount * fee_rate` on the gross input — in the
domain-selling direction and in the base-selling direction. -/
theorem get_trade_quote_constant_product
    (pools : String → Option (LiquidityPool ℚ)) (pool_id : String)
    (pool : LiquidityPool ℚ) (hpool : pools pool_id = some pool)
    (input_amount : ℚ) (slip : Option ℚ) (now : ℚ)
    (hdr : 0 < pool.domain_token_reserve) (hbr : 0 < pool.base_token_reserve)
    (hf0 : 0 ≤ pool.fee_rate) (hf1 : pool.fee_rate < 1) (hx : 0 < input_amount) :
    (∃ q, get_trade_quote pools pool_id "domain" input_amount slip now = .ok q ∧
      q.output_amount =
        pool.base_token_reserve * (input_amount * (1 - pool.fee_rate)) /
          (pool.domain_token_reserve + input_amount * (1 - pool.fee_rate)) ∧
      q.fee_amount = input_amount * pool.fee_rate) ∧
    (pool.base_token ≠ "domain" →
      ∃ q, get_trade_quote pools pool_id pool.base_token input_amount slip now = .ok q ∧
        q.output_amount =
          pool.domain_token_reserve * (input_amount * (1 - pool.fee_rate)) /
            (pool.base_token_reserve + input_amount * (1 - pool.fee_rate)) ∧
        q.fee_amount = input_amount * pool.fee_rate) := by
  constructor
  · simp only [get_trade_quote, hpool]
    norm_num
  · intro hbt
    simp only [get_trade_quote, hpool, if_neg hbt,
      if_pos (show pool.base_token = pool.base_token from rfl)]
    exact ⟨_, rfl, rfl, rfl⟩

/-- Witness for C1 at the scenario pool, input 1000. -/
theorem get_trade_quote_constant_product_witness :
    (0:ℚ) < samplePool.domain_token_reserve ∧ (0:ℚ) < samplePool.base_token_reserve ∧
    0 ≤ samplePool.fee_rate ∧ samplePool.fee_rate < 1 ∧ (0:ℚ) < 1000 ∧
    ((∃ q, get_trade_quote (pool_store samplePool) "P" "domain" 1000 none 0 = .ok q ∧
      q.output_amount =
        samplePool.base_token_reserve * (1000 * (1 - samplePool.fee_rate)) /
          (samplePool.domain_token_reserve + 1000 * (1 - samplePool.fee_rate)) ∧
      q.fee_amount = 1000 * samplePool.fee_rate) ∧
    (samplePool.base_token ≠ "domain" →
      ∃ q, get_trade_quote (pool_store samplePool) "P" samplePool.base_token 1000 none 0 = .ok q ∧
        q.output_amount =
          samplePool.domain_token_reserve * (1000 * (1 - samplePool.fee_rate)) /
            (samplePool.base_token_reserve + 1000 * (1 - samplePool.fee_rate)) ∧
        q.fee_amount = 1000 * samplePool.fee_rate)) :=
  ⟨by norm_num [samplePool], by norm_num [samplePool], by norm_num [samplePool],
    by norm_num [samplePool], by norm_num,
    get_trade_quote_constant_product (pool_store samplePool) "P" samplePool
      (pool_store_self samplePool) 1000 none 0 (by norm_num [samplePool])
      (by norm_num [samplePool]) (by norm_num [samplePool]) (by norm_num [samplePool])
      (by norm_num)⟩

/-! ### Constant-product algebra for one fee-adjusted swap -/

/-- Core algebra of one constant-product swap with input reserve `i`,
output reserve `o`, fee `f` and gross input `x`: the post-trade reserves
stay positive, the reserve product never decreases, and it strictly
increases exactly when the fee-adjusted input is below the gross input. -/
lemma swap_product_core (i o f x : ℚ) (hi : 0 < i) (ho : 0 < o)
    (hf0 : 0 ≤ f) (hf1 : f < 1) (hx : 0 < x) :
    0 < i + x ∧
    0 < o - o * (x * (1 - f)) / (i + x * (1 - f)) ∧
    i * o ≤ (i + x) * (o - o * (x * (1 - f)) / (i + x * (1 - f))) ∧
    (i * o < (i + x) * (o - o * (x * (1 - f)) / (i + x * (1 - f))) ↔
      x * (1 - f) < x) := by
  have hx' : 0 < x * (1 - f) := mul_pos hx (by linarith)
  have hden : 0 < i + x * (1 - f) := by linarith
  have hout : o - o * (x * (1 - f)) / (i + x * (1 - f)) =
      o * i / (i + x * (1 - f)) := by
    field_simp
    ring
  have hxle : x * (1 - f) ≤ x := by nlinarith
  refine ⟨by linarith, ?_, ?_, ?_⟩
  · rw [hout]
    positivity
  · rw [hout, mul_div_assoc']
    rw [le_div_iff hden]
    nlinarith [mul_nonneg (mul_pos hi ho).le (sub_nonneg.mpr hxle)]
  · rw [hout, mul_div_assoc', lt_div_iff hden]
    constructor
    · intro h
      by_contra hcon
      push_neg at hcon
      have hxx : x = x * (1 - f) := le_antisymm hcon hxle
      rw [← hxx] at h
      have heq : i * o * (i + x) = (i + x) * (o * i) := by ring
      linarith
    · intro h
      nlinarith [mul_pos (mul_pos hi ho) (sub_pos.mpr h)]

/-- The reserve product of a successfully executed fresh quote never
decreases, stays positive, and grows strictly iff the fee-adjusted input
is below the gross input — both trade directions. -/
lemma quote_execute_product (pools : String → Option (LiquidityPool ℚ))
    (pool_id input_token : String) (x now : ℚ) (pool : LiquidityPool ℚ)
    (q : TradeQuote) (pool2 : LiquidityPool ℚ)
    (hpool : pools pool_id = some pool)
    (hdr : 0 < pool.domain_token_reserve) (hbr : 0 < pool.base_token_reserve)
    (hf0 : 0 ≤ pool.fee_rate) (hf1 : pool.fee_rate < 1) (hx : 0 < x)
    (hq : get_trade_quote pools pool_id input_token x none now = .ok q)
    (hexec : execute_trade pools pool_id q now = .ok pool2) :
    0 < pool2.domain_token_reserve ∧ 0 < pool2.base_token_reserve ∧
    pool.domain_token_reserve * pool.base_token_reserve ≤
      pool2.domain_token_reserve * pool2.base_token_reserve ∧
    (pool.domain_token_reserve * pool.base_token_reserve <
        pool2.domain_token_reserve * pool2.base_token_reserve ↔
      x * (1 - pool.fee_rate) < x) := by
  obtain ⟨hqtok, hqin, -, hqcase⟩ :=
    get_trade_quote_ok_fields pools pool_id input_token x none now pool q hpool hq
  obtain ⟨-, -, -, -, -, -, -, hecase⟩ :=
    execute_trade_ok_cases pools pool_id q now pool pool2 hpool hexec
  rcases hqcase with ⟨htok, hout⟩ | ⟨htok, -, hout⟩
  · rcases hecase with ⟨-, hdom2, hbase2⟩ | ⟨habs, -, -⟩
    · rw [hdom2, hbase2, hqin, hout]
      have h := swap_product_core pool.domain_token_reserve pool.base_token_reserve
        pool.fee_rate x hdr hbr hf0 hf1 hx
      exact ⟨h.1, h.2.1, h.2.2.1, h.2.2.2⟩
    · exact absurd (hqtok.trans htok) habs
  · rcases hecase with ⟨habs, -, -⟩ | ⟨-, hbase2, hdom2⟩
    · exact absurd (hqtok.symm.trans habs) htok
    · rw [hdom2, hbase2, hqin, hout]
      obtain ⟨h1, h2, h3, h4⟩ := swap_product_core pool.base_token_reserve
        pool.domain_token_reserve pool.fee_rate x hbr hdr hf0 hf1 hx
      refine ⟨h2, h1, by linarith, ?_⟩
      constructor
      · intro hlt
        exact h4.mp (by linarith)
      · intro hlt
        have := h4.mpr hlt
        linarith

/-- One quote-then-execute step keeps the reserves positive and the fee
rate, pool id and positions unchanged, and never decreases the reserve
product (a rejected quote or execution leaves the state untouched). -/
lemma swap_step_preserves (s : AmmState) (r : SwapRequest)
    (hdr : 0 < s.pool.domain_token_reserve) (hbr : 0 < s.pool.base_token_reserve)
    (hf0 : 0 ≤ s.pool.fee_rate) (hf1 : s.pool.fee_rate < 1) (hx : 0 < r.amount) :
    0 < (swap_step s r).pool.domain_token_reserve ∧
    0 < (swap_step s r).pool.base_token_reserve ∧
    (swap_step s r).pool.fee_rate = s.pool.fee_rate ∧
    (swap_step s r).pool.pool_id = s.pool.pool_id ∧
    (swap_step s r).positions = s.positions ∧
    (swap_step s r).pool.total_liquidity_tokens = s.pool.total_liquidity_tokens ∧
    s.pool.domain_token_reserve * s.pool.base_token_reserve ≤
      (swap_step s r).pool.domain_token_reserve *
        (swap_step s r).pool.base_token_reserve := by
  cases hq : get_trade_quote (pool_store s.pool) s.pool.pool_id r.input_token
      r.amount none r.now with
  | error e =>
    simp only [swap_step, hq]
    exact ⟨hdr, hbr, trivial, trivial, trivial, trivial, le_refl _⟩
  | ok q =>
    cases hexec : execute_trade (pool_store s.pool) s.pool.pool_id q r.now with
    | error e =>
      simp only [swap_step, hq, hexec]
      exact ⟨hdr, hbr, trivial, trivial, trivial, trivial, le_refl _⟩
    | ok pool2 =>
      have h := quote_execute_product (pool_store s.pool) s.pool.pool_id
        r.input_token r.amount r.now s.pool q pool2 (pool_store_self s.pool)
        hdr hbr hf0 hf1 hx hq hexec
      have hframe := execute_trade_ok_cases (pool_store s.pool) s.pool.pool_id
        q r.now s.pool pool2 (pool_store_self s.pool) hexec
      simp only [swap_step, hq, hexec]
      exact ⟨h.1, h.2.1, hframe.2.2.2.2.1, hframe.1, trivial, hframe.2.2.2.1, h.2.2.1⟩

/-- Sequence form of `swap_step_preserves`. -/
lemma run_swaps_preserves (reqs : List SwapRequest) :
    ∀ s : AmmState, 0 < s.pool.domain_token_reserve →
    0 < s.pool.base_token_reserve → 0 ≤ s.pool.fee_rate → s.pool.fee_rate < 1 →
    (∀ r ∈ reqs, 0 < r.amount) →
    0 < (run_swaps s reqs).pool.domain_token_reserve ∧
    0 < (run_swaps s reqs).pool.base_token_reserve ∧
    s.pool.domain_token_reserve * s.pool.base_token_reserve ≤
      (run_swaps s reqs).pool.domain_token_reserve *
        (run_swaps s reqs).pool.base_token_reserve := by
  induction reqs with
  | nil =>
    intro s hdr hbr _ _ _
    exact ⟨hdr, hbr, le_refl _⟩
  | cons r rs ih =>
    intro s hdr hbr hf0 hf1 hamts
    have hstep := swap_step_preserves s r hdr hbr hf0 hf1
      (hamts r (List.mem_cons_self r rs))
    have hrest := ih (swap_step s r) hstep.1 hstep.2.1
      (hstep.2.2.1 ▸ hf0) (hstep.2.2.1 ▸ hf1)
      (fun x hx => hamts x (List.mem_cons_of_mem r hx))
    exact ⟨hrest.1, hrest.2.1, le_trans hstep.2.2.2.2.2.2 hrest.2.2⟩

/-- C2: along any sequence of swaps, each quoted from the pool's current
state and immediately executed, the reserve product
`domain_reserve * base_reserve` never decreases; and a single executed
swap strictly increases the product exactly when the fee-adjusted input
`input_amount * (1 - fee_rate)` is less than the gross input. -/
theorem swap_sequence_product_nondecreasing (s : AmmState) (reqs : List SwapRequest)
    (hdr : 0 < s.pool.domain_token_reserve) (hbr : 0 < s.pool.base_token_reserve)
    (hf0 : 0 ≤ s.pool.fee_rate) (hf1 : s.pool.fee_rate < 1)
    (hamts : ∀ r ∈ reqs, 0 < r.amount) :
    s.pool.domain_token_reserve * s.pool.base_token_reserve ≤
      (run_swaps s reqs).pool.domain_token_reserve *
        (run_swaps s reqs).pool.base_token_reserve ∧
    (∀ (r : SwapRequest) (q : TradeQuote) (pool2 : LiquidityPool ℚ), 0 < r.amount →
      get_trade_quote (pool_store s.pool) s.pool.pool_id r.input_token
        r.amount none r.now = .ok q →
      execute_trade (pool_store s.pool) s.pool.pool_id q r.now = .ok pool2 →
      (s.pool.domain_token_reserve * s.pool.base_token_reserve <
          pool2.domain_token_reserve * pool2.base_token_reserve ↔
        r.amount * (1 - s.pool.fee_rate) < r.amount)) := by
  refine ⟨(run_swaps_preserves reqs s hdr hbr hf0 hf1 hamts).2.2, ?_⟩
  intro r q pool2 hx hq hexec
  exact (quote_execute_product (pool_store s.pool) s.pool.pool_id r.input_token
    r.amount r.now s.pool q pool2 (pool_store_self s.pool)
    hdr hbr hf0 hf1 hx hq hexec).2.2.2

/-- Witness for C2: two swaps on the sample pool. -/
theorem swap_sequence_product_nondecreasing_witness :
    sampleState.pool.domain_token_reserve * sampleState.pool.base_token_reserve ≤
      (run_swaps sampleState [⟨"domain", 10, 0⟩, ⟨"USDC", 7, 0⟩]).pool.domain_token_reserve *
        (run_swaps sampleState [⟨"domain", 10, 0⟩, ⟨"USDC", 7, 0⟩]).pool.base_token_reserve :=
  (swap_sequence_product_nondecreasing sampleState [⟨"domain", 10, 0⟩, ⟨"USDC", 7, 0⟩]
    (by norm_num [sampleState, samplePool]) (by norm_num [sampleState, samplePool])
    (by norm_num [sampleState, samplePool]) (by norm_num [sampleState, samplePool])
    (by intro r hr; fin_cases hr <;> norm_num)).1

/-! ## C4: validation order of `execute_trade` -/

/-- C4 (amended): `execute_trade` validates in the order (a) quote
expiry (`QuoteExpired`), then (b) pool existence (`PoolNotFound`), then
(c) price impact (`ExcessivePriceImpact`); in particular an expired
quote is reported as expired whatever the pool or impact, and a
non-expired quote on a missing pool reports the missing pool even when
the impact exceeds the threshold. -/
theorem execute_trade_validation_order (pools : String → Option (LiquidityPool ℚ))
    (pool_id : String) (q : TradeQuote) (now : ℚ) :
    (q.valid_until < now →
      execute_trade pools pool_id q now = .error .quoteExpired) ∧
    (¬ q.valid_until < now → pools pool_id = none →
      execute_trade pools pool_id q now = .error .poolNotFound) ∧
    (∀ pool, ¬ q.valid_until < now → pools pool_id = some pool →
      price_impact_threshold < q.price_impact →
      execute_trade pools pool_id q now = .error .excessivePriceImpact) := by
  refine ⟨?_, ?_, ?_⟩
  · intro h
    simp [execute_trade, if_pos h]
  · intro h hnone
    simp [execute_trade, if_neg h, hnone]
  · intro pool h hsome himp
    simp [execute_trade, if_neg h, hsome, if_pos himp]

/-- Witness for C4: an expired quote is rejected as expired. -/
theorem execute_trade_validation_order_witness :
    impactfulQuote.valid_until < 200 ∧
    execute_trade empty_pool_store "P" impactfulQuote 200 = .error .quoteExpired :=
  have h : impactfulQuote.valid_until < 200 := by
    norm_num [impactfulQuote, dummyQuote]
  ⟨h, (execute_trade_validation_order empty_pool_store "P" impactfulQuote 200).1 h⟩

/-- C4 counterexample: a non-expired quote with price impact 100% (far
above the 5% threshold) submitted against a missing pool is rejected
with the missing-pool error, not the price-impact error the claim
predicts — the pool lookup precedes the impact check. -/
theorem execute_trade_validation_order_counterexample :
    execute_trade empty_pool_store "P" impactfulQuote 0 = .error .poolNotFound ∧
    ¬ execute_trade empty_pool_store "P" impactfulQuote 0 =
        .error .excessivePriceImpact := by
  constructor
  · simp [execute_trade, empty_pool_store, impactfulQuote, dummyQuote]
  · intro h
    rw [show execute_trade empty_pool_store "P" impactfulQuote 0 =
        .error .poolNotFound from by
      simp [execute_trade, empty_pool_store, impactfulQuote, dummyQuote]] at h
    exact absurd h (by simp)

/-! ## C10: swap frame conditions -/

/-- C10: a successful `execute_trade` leaves the pool's share supply
(`total_liquidity_tokens`), `fee_rate`, and identity fields (`pool_id`,
`domain_id`, `base_token`, `created_at`) unchanged — a swap only moves
the two reserves and stamps `last_updated`; it never mints or burns
liquidity shares. -/
theorem execute_trade_frame (pools : String → Option (LiquidityPool ℚ))
    (pool_id : String) (q : TradeQuote) (now : ℚ) (pool pool2 : LiquidityPool ℚ)
    (hpool : pools pool_id = some pool)
    (hexec : execute_trade pools pool_id q now = .ok pool2) :
    pool2.total_liquidity_tokens = pool.total_liquidity_tokens ∧
    pool2.fee_rate = pool.fee_rate ∧ pool2.pool_id = pool.pool_id ∧
    pool2.domain_id = pool.domain_id ∧ pool2.base_token = pool.base_token ∧
    pool2.created_at = pool.created_at ∧ pool2.last_updated = now := by
  obtain ⟨h1, h2, h3, h4, h5, h6, h7, -⟩ :=
    execute_trade_ok_cases pools pool_id q now pool pool2 hpool hexec
  exact ⟨h4, h5, h1, h2, h3, h6, h7⟩

/-- Witness for C10: the sample trade executes and preserves the frame. -/
theorem execute_trade_frame_witness :
    execute_trade (pool_store samplePool) "P" sampleDomainQuote 0 =
      .ok sampleTradedPool ∧
    sampleTradedPool.total_liquidity_tokens = samplePool.total_liquidity_tokens ∧
    sampleTradedPool.fee_rate = samplePool.fee_rate ∧
    sampleTradedPool.pool_id = samplePool.pool_id ∧
    sampleTradedPool.domain_id = samplePool.domain_id ∧
    sampleTradedPool.base_token = samplePool.base_token ∧
    sampleTradedPool.created_at = samplePool.created_at ∧
    sampleTradedPool.last_updated = 0 :=
  have hexec : execute_trade (pool_store samplePool) "P" sampleDomainQuote 0 =
      .ok sampleTradedPool := by
    apply Except_eq_ok_getD
    simp [execute_trade, sampleDomainQuote, get_trade_quote, pool_store, samplePool,
      Except.toOption, dummyQuote, quote_ttl, slippage_tolerance, price_impact_threshold,
      Except.isOk, Except.toBool]
    norm_num [abs_of_nonneg]
  ⟨hexec, execute_trade_frame (pool_store samplePool) "P" sampleDomainQuote 0
    samplePool sampleTradedPool (pool_store_self samplePool) hexec⟩

/-! ## C6: proportional liquidity removal -/

/-- C6: burning `0 < shares ≤` the provider's holding from a pool with
positive share supply returns exactly
`domain_reserve * shares / total_shares` and
`base_reserve * shares / total_shares`, scales both reserves and the
share supply by the same factor `1 - shares / total_shares`, and
preserves the pool price: the new reserves stay in the old ratio
(cross-multiplied form always, quotient form whenever some liquidity
remains). -/
theorem remove_liquidity_proportional (pools : String → Option (LiquidityPool ℚ))
    (positions : List (LiquidityPosition ℚ)) (pool_id : String) (user_id : Nat)
    (shares now : ℚ) (pool : LiquidityPool ℚ) (position : LiquidityPosition ℚ)
    (hpool : pools pool_id = some pool)
    (hpos : find_position positions pool_id user_id = some position)
    (hT : 0 < pool.total_liquidity_tokens) (hs0 : 0 < shares)
    (hsle : shares ≤ position.liquidity_tokens)
    (hdr : 0 < pool.domain_token_reserve) (hbr : 0 < pool.base_token_reserve) :
    ∃ r, remove_liquidity pools positions pool_id user_id shares now = .ok r ∧
      r.domain_amount_received =
        pool.domain_token_reserve * shares / pool.total_liquidity_tokens ∧
      r.base_amount_received =
        pool.base_token_reserve * shares / pool.total_liquidity_tokens ∧
      r.liquidity_tokens_burned = shares ∧
      r.pool.domain_token_reserve =
        pool.domain_token_reserve * (1 - shares / pool.total_liquidity_tokens) ∧
      r.pool.base_token_reserve =
        pool.base_token_reserve * (1 - shares / pool.total_liquidity_tokens) ∧
      r.pool.total_liquidity_tokens =
        pool.total_liquidity_tokens * (1 - shares / pool.total_liquidity_tokens) ∧
      r.pool.base_token_reserve * pool.domain_token_reserve =
        pool.base_token_reserve * r.pool.domain_token_reserve ∧
      (shares < pool.total_liquidity_tokens →
        r.pool.base_token_reserve / r.pool.domain_token_reserve =
          pool.base_token_reserve / pool.domain_token_reserve) := by
  have hT0 : pool.total_liquidity_tokens ≠ 0 := ne_of_gt hT
  simp only [remove_liquidity, hpool, hpos, if_neg (not_lt.mpr hsle)]
  refine ⟨_, rfl, ?_, ?_, ?_, ?_, ?_, ?_, ?_, ?_⟩
  · dsimp only
    rw [mul_div_assoc]
  · dsimp only
    rw [mul_div_assoc]
  · rfl
  · dsimp only
    ring
  · dsimp only
    ring
  · dsimp only
    field_simp
  · dsimp only
    ring
  · intro hlt
    dsimp only
    have hfac : 1 - shares / pool.total_liquidity_tokens ≠ 0 := by
      have : shares / pool.total_liquidity_tokens < 1 := by
        rw [div_lt_one hT]
        exact hlt
      intro hcon
      rw [sub_eq_zero] at hcon
      linarith [hcon.symm]
    have hrw : ∀ a : ℚ, a - a * (shares / pool.total_liquidity_tokens) =
        a * (1 - shares / pool.total_liquidity_tokens) := by
      intro a
      ring
    rw [hrw, hrw, mul_div_mul_right _ _ hfac]

/-- Witness for C6: removing 50% of the shares (1118 of 2236) from the
`(1000, 5000)` pool returns exactly `(500, 2500)` and halves the share
supply. -/
theorem remove_liquidity_proportional_witness :
    ((0:ℚ) < samplePool.total_liquidity_tokens ∧ (0:ℚ) < 1118 ∧
      (1118:ℚ) ≤ samplePosition.liquidity_tokens) ∧
    ((remove_liquidity (pool_store samplePool) [samplePosition] "P" 1 1118 0).toOption.getD
      dummyRemove).domain_amount_received = 500 ∧
    ((remove_liquidity (pool_store samplePool) [samplePosition] "P" 1 1118 0).toOption.getD
      dummyRemove).base_amount_received = 2500 ∧
    ((remove_liquidity (pool_store samplePool) [samplePosition] "P" 1 1118 0).toOption.getD
      dummyRemove).pool.total_liquidity_tokens = 1118 ∧
    (∃ r, remove_liquidity (pool_store samplePool) [samplePosition] "P" 1 1118 0 = .ok r ∧
      r.domain_amount_received =
        samplePool.domain_token_reserve * 1118 / samplePool.total_liquidity_tokens ∧
      r.base_amount_received =
        samplePool.base_token_reserve * 1118 / samplePool.total_liquidity_tokens ∧
      r.liquidity_tokens_burned = 1118 ∧
      r.pool.domain_token_reserve =
        samplePool.domain_token_reserve * (1 - 1118 / samplePool.total_liquidity_tokens) ∧
      r.pool.base_token_reserve =
        samplePool.base_token_reserve * (1 - 1118 / samplePool.total_liquidity_tokens) ∧
      r.pool.total_liquidity_tokens =
        samplePool.total_liquidity_tokens * (1 - 1118 / samplePool.total_liquidity_tokens) ∧
      r.pool.base_token_reserve * samplePool.domain_token_reserve =
        samplePool.base_token_reserve * r.pool.domain_token_reserve ∧
      (1118 < samplePool.total_liquidity_tokens →
        r.pool.base_token_reserve / r.pool.domain_token_reserve =
          samplePool.base_token_reserve / samplePool.domain_token_reserve)) :=
  ⟨⟨by norm_num [samplePool], by norm_num, by norm_num [samplePosition]⟩,
    by
      simp [remove_liquidity, pool_store, find_position, position_matches,
        samplePool, samplePosition, Except.toOption]
      norm_num,
    by
      simp [remove_liquidity, pool_store, find_position, position_matches,
        samplePool, samplePosition, Except.toOption]
      norm_num,
    by
      simp [remove_liquidity, pool_store, find_position, position_matches,
        samplePool, samplePosition, Except.toOption]
      norm_num,
    remove_liquidity_proportional (pool_store samplePool) [samplePosition] "P" 1
      1118 0 samplePool samplePosition (pool_store_self samplePool)
      (by simp [find_position, position_matches, samplePosition])
      (by norm_num [samplePool]) (by norm_num)
      (by norm_num [samplePosition]) (by norm_num [samplePool]) (by norm_num [samplePool])⟩

/-! ## C7: ratio-preserving liquidity addition -/

/-- C7: on a pool with positive reserves and share supply, a deposit of
positive `(domain_amount, base_amount)` consumes the smaller of the two
supplied amounts scaled to the current reserve ratio and leaves the
remainder unconsumed (non-negative `unused_*` refunds); it mints
`min(domain_used/domain_reserve, base_used/base_reserve) * total_shares`
shares; and the minted shares' fraction of the post-deposit share supply
equals the deposited fraction of the post-deposit reserves, on both
sides of the pool. -/
theorem add_liquidity_preserves_ratio (pools : String → Option (LiquidityPool ℚ))
    (positions : List (LiquidityPosition ℚ)) (pool_id : String) (user_id : Nat)
    (domain_amount base_amount now : ℚ) (pool : LiquidityPool ℚ)
    (hpool : pools pool_id = some pool)
    (hdr : 0 < pool.domain_token_reserve) (hbr : 0 < pool.base_token_reserve)
    (hT : 0 < pool.total_liquidity_tokens)
    (hd : 0 < domain_amount) (hb : 0 < base_amount) :
    ∃ r, add_liquidity pools positions pool_id user_id domain_amount base_amount now =
        .ok r ∧
      ((domain_amount * (pool.base_token_reserve / pool.domain_token_reserve) ≤
          base_amount →
        r.domain_amount_used = domain_amount ∧
        r.base_amount_used =
          domain_amount * (pool.base_token_reserve / pool.domain_token_reserve)) ∧
       (¬ domain_amount * (pool.base_token_reserve / pool.domain_token_reserve) ≤
          base_amount →
        r.domain_amount_used =
          base_amount / (pool.base_token_reserve / pool.domain_token_reserve) ∧
        r.base_amount_used = base_amount)) ∧
      r.unused_domain = domain_amount - r.domain_amount_used ∧
      r.unused_base = base_amount - r.base_amount_used ∧
      0 ≤ r.unused_domain ∧ 0 ≤ r.unused_base ∧
      r.liquidity_tokens_minted =
        min (r.domain_amount_used / pool.domain_token_reserve)
          (r.base_amount_used / pool.base_token_reserve) *
          pool.total_liquidity_tokens ∧
      r.pool.total_liquidity_tokens =
        pool.total_liquidity_tokens + r.liquidity_tokens_minted ∧
      r.pool.domain_token_reserve = pool.domain_token_reserve + r.domain_amount_used ∧
      r.pool.base_token_reserve = pool.base_token_reserve + r.base_amount_used ∧
      r.liquidity_tokens_minted / r.pool.total_liquidity_tokens =
        r.domain_amount_used / r.pool.domain_token_reserve ∧
      r.liquidity_tokens_minted / r.pool.total_liquidity_tokens =
        r.base_amount_used / r.pool.base_token_reserve := by
  have hdr0 : pool.domain_token_reserve ≠ 0 := ne_of_gt hdr
  have hbr0 : pool.base_token_reserve ≠ 0 := ne_of_gt hbr
  have hT0 : pool.total_liquidity_tokens ≠ 0 := ne_of_gt hT
  by_cases hcase : domain_amount * (pool.base_token_reserve / pool.domain_token_reserve) ≤
      base_amount
  · -- the domain-side deposit is limiting
    have hkey : domain_amount * (pool.base_token_reserve / pool.domain_token_reserve) /
        pool.base_token_reserve = domain_amount / pool.domain_token_reserve := by
      field_simp
      ring
    simp only [add_liquidity, hpool, if_pos hcase]
    refine ⟨_, rfl, ⟨fun _ => ⟨rfl, rfl⟩, fun hcon => absurd hcase hcon⟩, rfl, rfl,
      ?_, ?_, ?_, rfl, rfl, rfl, ?_, ?_⟩
    · dsimp only
      norm_num
    · dsimp only
      linarith
    · dsimp only
      rw [hkey, min_self, min_self]
    · dsimp only
      rw [hkey, min_self]
      rw [div_eq_div_iff (by positivity) (by positivity)]
      field_simp
      ring
    · dsimp only
      rw [hkey, min_self]
      rw [div_eq_div_iff (by positivity) (by positivity)]
      field_simp
      ring
  · -- the base-side deposit is limiting
    have hratio : 0 < pool.base_token_reserve / pool.domain_token_reserve := by positivity
    have hle : base_amount / (pool.base_token_reserve / pool.domain_token_reserve) ≤
        domain_amount := by
      rw [div_le_iff hratio]
      linarith [not_le.mp hcase]
    have hkey : base_amount / (pool.base_token_reserve / pool.domain_token_reserve) /
        pool.domain_token_reserve = base_amount / pool.base_token_reserve := by
      field_simp
      ring
    simp only [add_liquidity, hpool, if_neg hcase]
    refine ⟨_, rfl, ⟨fun hcon => absurd hcon hcase, fun _ => ⟨rfl, rfl⟩⟩, rfl, rfl,
      ?_, ?_, ?_, rfl, rfl, rfl, ?_, ?_⟩
    · dsimp only
      linarith
    · dsimp only
      norm_num
    · dsimp only
      rw [hkey, min_self, min_self]
    · dsimp only
      rw [hkey, min_self]
      rw [div_eq_div_iff (by positivity) (by positivity)]
      field_simp
      ring
    · dsimp only
      rw [hkey, min_self]
      rw [div_eq_div_iff (by positivity) (by positivity)]
      field_simp
      ring

/-- Witness for C7: depositing `(10, 100)` into the `(1000, 5000)` pool
consumes `(10, 50)` (refunding 50 base tokens) and mints
`min(10/1000, 50/5000) * 2236 = 559/25` shares. -/
theorem add_liquidity_preserves_ratio_witness :
    ((0:ℚ) < samplePool.domain_token_reserve ∧ (0:ℚ) < 10 ∧ (0:ℚ) < 100) ∧
    ((add_liquidity (pool_store samplePool) [] "P" 2 10 100 0).toOption.getD
      dummyAdd).domain_amount_used = 10 ∧
    ((add_liquidity (pool_store samplePool) [] "P" 2 10 100 0).toOption.getD
      dummyAdd).base_amount_used = 50 ∧
    ((add_liquidity (pool_store samplePool) [] "P" 2 10 100 0).toOption.getD
      dummyAdd).unused_base = 50 ∧
    ((add_liquidity (pool_store samplePool) [] "P" 2 10 100 0).toOption.getD
      dummyAdd).liquidity_tokens_minted = 559 / 25 ∧
    (∃ r, add_liquidity (pool_store samplePool) [] "P" 2 10 100 0 = .ok r ∧
      ((10 * (samplePool.base_token_reserve / samplePool.domain_token_reserve) ≤ 100 →
        r.domain_amount_used = 10 ∧
        r.base_amount_used =
          10 * (samplePool.base_token_reserve / samplePool.domain_token_reserve)) ∧
       (¬ 10 * (samplePool.base_token_reserve / samplePool.domain_token_reserve) ≤ 100 →
        r.domain_amount_used =
          100 / (samplePool.base_token_reserve / samplePool.domain_token_reserve) ∧
        r.base_amount_used = 100)) ∧
      r.unused_domain = 10 - r.domain_amount_used ∧
      r.unused_base = 100 - r.base_amount_used ∧
      0 ≤ r.unused_domain ∧ 0 ≤ r.unused_base ∧
      r.liquidity_tokens_minted =
        min (r.domain_amount_used / samplePool.domain_token_reserve)
          (r.base_amount_used / samplePool.base_token_reserve) *
          samplePool.total_liquidity_tokens ∧
      r.pool.total_liquidity_tokens =
        samplePool.total_liquidity_tokens + r.liquidity_tokens_minted ∧
      r.pool.domain_token_reserve =
        samplePool.domain_token_reserve + r.domain_amount_used ∧
      r.pool.base_token_reserve = samplePool.base_token_reserve + r.base_amount_used ∧
      r.liquidity_tokens_minted / r.pool.total_liquidity_tokens =
        r.domain_amount_used / r.pool.domain_token_reserve ∧
      r.liquidity_tokens_minted / r.pool.total_liquidity_tokens =
        r.base_amount_used / r.pool.base_token_reserve) :=
  ⟨⟨by norm_num [samplePool], by norm_num, by norm_num⟩,
    by
      simp [add_liquidity, pool_store, samplePool, Except.toOption]
      norm_num,
    by
      simp [add_liquidity, pool_store, samplePool, Except.toOption]
      norm_num,
    by
      simp [add_liquidity, pool_store, samplePool, Except.toOption]
      norm_num,
    by
      simp [add_liquidity, pool_store, samplePool, Except.toOption]
      norm_num,
    add_liquidity_preserves_ratio (pool_store samplePool) [] "P" 2 10 100 0
      samplePool (pool_store_self samplePool) (by norm_num [samplePool])
      (by norm_num [samplePool]) (by norm_num [samplePool]) (by norm_num) (by norm_num)⟩

/-! ### Position-store bookkeeping lemmas -/

lemma sum_tokens_nil : sum_tokens [] = 0 := rfl

lemma sum_tokens_cons (p : LiquidityPosition ℚ) (l : List (LiquidityPosition ℚ)) :
    sum_tokens (p :: l) = p.liquidity_tokens + sum_tokens l := by
  simp [sum_tokens]

lemma sum_tokens_append_single (l : List (LiquidityPosition ℚ))
    (p : LiquidityPosition ℚ) :
    sum_tokens (l ++ [p]) = sum_tokens l + p.liquidity_tokens := by
  simp [sum_tokens]

lemma sum_tokens_nonneg (l : List (LiquidityPosition ℚ))
    (h : ∀ q ∈ l, 0 ≤ q.liquidity_tokens) : 0 ≤ sum_tokens l := by
  induction l with
  | nil => simp [sum_tokens_nil]
  | cons a tl ih =>
    rw [sum_tokens_cons]
    have ha := h a (List.mem_cons_self a tl)
    have htl := ih (fun q hq => h q (List.mem_cons_of_mem a hq))
    linarith

lemma tokens_le_sum (l : List (LiquidityPosition ℚ)) (p : LiquidityPosition ℚ)
    (h : ∀ q ∈ l, 0 ≤ q.liquidity_tokens) (hp : p ∈ l) :
    p.liquidity_tokens ≤ sum_tokens l := by
  induction l with
  | nil => cases hp
  | cons a tl ih =>
    rw [sum_tokens_cons]
    rcases List.mem_cons.mp hp with heq | hmem
    · subst heq
      have := sum_tokens_nonneg tl (fun q hq => h q (List.mem_cons_of_mem p hq))
      linarith
    · have := ih (fun q hq => h q (List.mem_cons_of_mem a hq)) hmem
      have := h a (List.mem_cons_self a tl)
      linarith

lemma sum_tokens_update_first (P : LiquidityPosition ℚ → Bool)
    (f : LiquidityPosition ℚ → LiquidityPosition ℚ) :
    ∀ (l : List (LiquidityPosition ℚ)) (p : LiquidityPosition ℚ),
    l.find? P = some p →
    sum_tokens (update_first P f l) =
      sum_tokens l - p.liquidity_tokens + (f p).liquidity_tokens := by
  intro l
  induction l with
  | nil => intro p h; simp [List.find?] at h
  | cons a tl ih =>
    intro p h
    cases hPa : P a with
    | true =>
      rw [List.find?_cons_of_pos _ hPa] at h
      injection h with h
      subst h
      simp only [update_first, if_pos hPa]
      rw [sum_tokens_cons, sum_tokens_cons]
      ring
    | false =>
      rw [List.find?_cons_of_neg _ (by simp [hPa])] at h
      simp only [update_first, if_neg (by simp [hPa] : ¬ P a = true)]
      rw [sum_tokens_cons, sum_tokens_cons, ih p h]
      ring

lemma mem_update_first (P : LiquidityPosition ℚ → Bool)
    (f : LiquidityPosition ℚ → LiquidityPosition ℚ) :
    ∀ (l : List (LiquidityPosition ℚ)) (q : LiquidityPosition ℚ),
    q ∈ update_first P f l → q ∈ l ∨ ∃ p, l.find? P = some p ∧ q = f p := by
  intro l
  induction l with
  | nil => intro q h; cases h
  | cons a tl ih =>
    intro q h
    by_cases hPa : P a = true
    · simp only [update_first, if_pos hPa] at h
      rcases List.mem_cons.mp h with heq | hmem
      · exact Or.inr ⟨a, List.find?_cons_of_pos _ hPa, heq⟩
      · exact Or.inl (List.mem_cons_of_mem a hmem)
    · simp only [update_first, if_neg hPa] at h
      rcases List.mem_cons.mp h with heq | hmem
      · exact Or.inl (heq ▸ List.mem_cons_self a tl)
      · rcases ih q hmem with hq | ⟨p, hfp, hq⟩
        · exact Or.inl (List.mem_cons_of_mem a hq)
        · refine Or.inr ⟨p, ?_, hq⟩
          rw [List.find?_cons_of_neg _ (by simpa using hPa)]
          exact hfp

lemma sum_tokens_erase_first (P : LiquidityPosition ℚ → Bool) :
    ∀ (l : List (LiquidityPosition ℚ)) (p : LiquidityPosition ℚ),
    l.find? P = some p →
    sum_tokens (erase_first P l) = sum_tokens l - p.liquidity_tokens := by
  intro l
  induction l with
  | nil => intro p h; simp [List.find?] at h
  | cons a tl ih =>
    intro p h
    cases hPa : P a with
    | true =>
      rw [List.find?_cons_of_pos _ hPa] at h
      injection h with h
      subst h
      simp only [erase_first, if_pos hPa]
      rw [sum_tokens_cons]
      ring
    | false =>
      rw [List.find?_cons_of_neg _ (by simp [hPa])] at h
      simp only [erase_first, if_neg (by simp [hPa] : ¬ P a = true)]
      rw [sum_tokens_cons, sum_tokens_cons, ih p h]
      ring

lemma mem_erase_first (P : LiquidityPosition ℚ → Bool) :
    ∀ (l : List (LiquidityPosition ℚ)) (q : LiquidityPosition ℚ),
    q ∈ erase_first P l → q ∈ l := by
  intro l
  induction l with
  | nil => intro q h; cases h
  | cons a tl ih =>
    intro q h
    by_cases hPa : P a
    · simp only [erase_first, if_pos hPa] at h
      exact List.mem_cons_of_mem a h
    · simp only [erase_first, if_neg hPa] at h
      rcases List.mem_cons.mp h with heq | hmem
      · exact heq ▸ List.mem_cons_self a tl
      · exact List.mem_cons_of_mem a (ih q hmem)

/-- State effect of a successful `add_liquidity` with positive reserves
and deposit amounts: reserves stay positive, a non-negative share amount
is minted and credited both to the pool supply and to exactly one
position, and all position records stay non-negative and in this pool. -/
lemma add_liquidity_ok_state (pools : String → Option (LiquidityPool ℚ))
    (positions : List (LiquidityPosition ℚ)) (pool_id : String) (user_id : Nat)
    (d b now : ℚ) (pool : LiquidityPool ℚ) (r : AddLiquidityResult)
    (hpool : pools pool_id = some pool)
    (hok : add_liquidity pools positions pool_id user_id d b now = .ok r)
    (hdr : 0 < pool.domain_token_reserve) (hbr : 0 < pool.base_token_reserve)
    (hT : 0 ≤ pool.total_liquidity_tokens) (hd : 0 < d) (hb : 0 < b)
    (h0 : ∀ q ∈ positions, 0 ≤ q.liquidity_tokens ∧ q.pool_id = pool_id) :
    0 < r.pool.domain_token_reserve ∧ 0 < r.pool.base_token_reserve ∧
    0 ≤ r.liquidity_tokens_minted ∧
    r.pool.total_liquidity_tokens =
      pool.total_liquidity_tokens + r.liquidity_tokens_minted ∧
    r.pool.pool_id = pool.pool_id ∧ r.pool.fee_rate = pool.fee_rate ∧
    sum_tokens r.positions = sum_tokens positions + r.liquidity_tokens_minted ∧
    (∀ q ∈ r.positions, 0 ≤ q.liquidity_tokens ∧ q.pool_id = pool_id) := by
  simp only [add_liquidity, hpool, Except.ok.injEq] at hok
  subst hok
  have hratio : 0 < pool.base_token_reserve / pool.domain_token_reserve := by positivity
  have hfd : 0 < if d * (pool.base_token_reserve / pool.domain_token_reserve) ≤ b
      then d else b / (pool.base_token_reserve / pool.domain_token_reserve) := by
    split
    · exact hd
    · positivity
  have hfb : 0 < if d * (pool.base_token_reserve / pool.domain_token_reserve) ≤ b
      then d * (pool.base_token_reserve / pool.domain_token_reserve) else b := by
    split
    · positivity
    · exact hb
  set fd := if d * (pool.base_token_reserve / pool.domain_token_reserve) ≤ b
      then d else b / (pool.base_token_reserve / pool.domain_token_reserve) with hfd_def
  set fb := if d * (pool.base_token_reserve / pool.domain_token_reserve) ≤ b
      then d * (pool.base_token_reserve / pool.domain_token_reserve) else b with hfb_def
  have hmint : 0 ≤ min (fd / pool.domain_token_reserve * pool.total_liquidity_tokens)
      (fb / pool.base_token_reserve * pool.total_liquidity_tokens) := by
    apply le_min
    · exact mul_nonneg (le_of_lt (div_pos hfd hdr)) hT
    · exact mul_nonneg (le_of_lt (div_pos hfb hbr)) hT
  refine ⟨by dsimp only; linarith, by dsimp only; linarith, hmint, rfl, rfl, rfl, ?_, ?_⟩
  · dsimp only
    cases hfind : find_position positions pool_id user_id with
    | none =>
      simp only [hfind]
      exact sum_tokens_append_single positions _
    | some p =>
      simp only [hfind]
      rw [sum_tokens_update_first (position_matches pool_id user_id) _ positions p hfind]
      dsimp only
      ring
  · dsimp only
    cases hfind : find_position positions pool_id user_id with
    | none =>
      simp only [hfind]
      intro q hq
      rcases List.mem_append.mp hq with hmem | hnew
      · exact h0 q hmem
      · rcases List.mem_singleton.mp hnew with rfl
        exact ⟨hmint, rfl⟩
    | some p =>
      simp only [hfind]
      intro q hq
      rcases mem_update_first _ _ positions q hq with hmem | ⟨p2, hfind2, rfl⟩
      · exact h0 q hmem
      · have hp2 : p2 = p := by
          rw [show find_position positions pool_id user_id = positions.find?
            (position_matches pool_id user_id) from rfl] at hfind
          rw [hfind] at hfind2
          exact (Option.some.injEq _ _ ▸ hfind2).symm
        subst hp2
        obtain ⟨hp2t, hp2id⟩ := h0 p2 (List.mem_of_find?_eq_some hfind)
        exact ⟨by dsimp only; linarith, hp2id⟩

/-- State effect of a successful `remove_liquidity` on a well-formed
store: the burned shares are bounded by the pool supply (via the
position guard and the positions-account-for-supply invariant), so
reserves and supply stay non-negative; the burn is debited consistently
from the supply and from the position records. -/
lemma remove_liquidity_ok_state (pools : String → Option (LiquidityPool ℚ))
    (positions : List (LiquidityPosition ℚ)) (pool_id : String) (user_id : Nat)
    (t now : ℚ) (pool : LiquidityPool ℚ) (r : RemoveLiquidityResult)
    (hpool : pools pool_id = some pool)
    (hok : remove_liquidity pools positions pool_id user_id t now = .ok r)
    (hdr : 0 ≤ pool.domain_token_reserve) (hbr : 0 ≤ pool.base_token_reserve)
    (hT : 0 < pool.total_liquidity_tokens) (ht : 0 < t)
    (h0 : ∀ q ∈ positions, 0 ≤ q.liquidity_tokens ∧ q.pool_id = pool_id)
    (hsum : sum_tokens positions = pool.total_liquidity_tokens) :
    0 ≤ r.pool.domain_token_reserve ∧ 0 ≤ r.pool.base_token_reserve ∧
    0 ≤ r.pool.total_liquidity_tokens ∧
    r.pool.total_liquidity_tokens = pool.total_liquidity_tokens - t ∧
    r.pool.pool_id = pool.pool_id ∧ r.pool.fee_rate = pool.fee_rate ∧
    sum_tokens r.positions = sum_tokens positions - t ∧
    (∀ q ∈ r.positions, 0 ≤ q.liquidity_tokens ∧ q.pool_id = pool_id) := by
  simp only [remove_liquidity, hpool] at hok
  cases hfind : find_position positions pool_id user_id with
  | none =>
    simp only [hfind] at hok
    exact absurd hok (by simp)
  | some p =>
    simp only [hfind] at hok
    by_cases hguard : p.liquidity_tokens < t
    · rw [if_pos hguard] at hok
      exact absurd hok (by simp)
    · rw [if_neg hguard] at hok
      simp only [Except.ok.injEq] at hok
      subst hok
      have hmem : p ∈ positions := List.mem_of_find?_eq_some hfind
      have hple : p.liquidity_tokens ≤ sum_tokens positions :=
        tokens_le_sum positions p (fun q hq => (h0 q hq).1) hmem
      have htT : t ≤ pool.total_liquidity_tokens := by
        rw [← hsum]
        exact le_trans (not_lt.mp hguard) hple
      have hshare1 : t / pool.total_liquidity_tokens ≤ 1 := by
        rw [div_le_one hT]
        exact htT
      have hshare0 : 0 ≤ t / pool.total_liquidity_tokens := by positivity
      refine ⟨?_, ?_, ?_, rfl, rfl, rfl, ?_, ?_⟩
      · dsimp only
        nlinarith
      · dsimp only
        nlinarith
      · dsimp only
        linarith
      · dsimp only
        split
        · rename_i hzero
          rw [sum_tokens_erase_first (position_matches pool_id user_id) positions p hfind]
          have : p.liquidity_tokens = t := le_antisymm (by linarith) (not_lt.mp hguard)
          rw [this]
        · rw [sum_tokens_update_first (position_matches pool_id user_id) _ positions p hfind]
          dsimp only
          ring
      · dsimp only
        split
        · intro q hq
          exact h0 q (mem_erase_first _ positions q hq)
        · rename_i hnz
          intro q hq
          rcases mem_update_first _ _ positions q hq with hmemq | ⟨p2, hfind2, rfl⟩
          · exact h0 q hmemq
          · have hp2 : p2 = p := by
              rw [show find_position positions pool_id user_id = positions.find?
                (position_matches pool_id user_id) from rfl] at hfind
              rw [hfind] at hfind2
              exact (Option.some.injEq _ _ ▸ hfind2).symm
            subst hp2
            obtain ⟨hp2t, hp2id⟩ := h0 p2 (List.mem_of_find?_eq_some hfind2)
            refine ⟨?_, hp2id⟩
            dsimp only
            push_neg at hnz
            linarith

/-- Every valid mutation preserves the ledger invariant. -/
lemma inv_apply_op (s : AmmState) (op : AmmOp) (hInv : Inv s)
    (hv : ValidOp s op) : Inv (apply_op s op) := by
  obtain ⟨hdr, hbr, hT, hf0, hf1, hpos, hsum⟩ := hInv
  cases op with
  | swap input_token amount now =>
    obtain ⟨hx, hdr', hbr'⟩ := hv
    have h := swap_step_preserves s ⟨input_token, amount, now⟩ hdr' hbr' hf0 hf1 hx
    obtain ⟨h1, h2, h3, h4, h5, h6, -⟩ := h
    exact ⟨le_of_lt h1, le_of_lt h2, h6 ▸ hT, h3 ▸ hf0, h3 ▸ hf1,
      by show ∀ p ∈ (swap_step s ⟨input_token, amount, now⟩).positions,
           0 ≤ p.liquidity_tokens ∧
           p.pool_id = (swap_step s ⟨input_token, amount, now⟩).pool.pool_id
         rw [h5, h4]
         exact hpos,
      by show sum_tokens (swap_step s ⟨input_token, amount, now⟩).positions =
           (swap_step s ⟨input_token, amount, now⟩).pool.total_liquidity_tokens
         rw [h5, h6]
         exact hsum⟩
  | addLiq user_id domain_amount base_amount now =>
    obtain ⟨hd, hb, hdr', hbr'⟩ := hv
    show Inv (match add_liquidity (pool_store s.pool) s.positions s.pool.pool_id
        user_id domain_amount base_amount now with
      | .error _ => s
      | .ok r => ⟨r.pool, r.positions⟩)
    cases hok : add_liquidity (pool_store s.pool) s.positions s.pool.pool_id
        user_id domain_amount base_amount now with
    | error e => exact ⟨hdr, hbr, hT, hf0, hf1, hpos, hsum⟩
    | ok r =>
      obtain ⟨g1, g2, g3, g4, g5, g6, g7, g8⟩ := add_liquidity_ok_state
        (pool_store s.pool) s.positions s.pool.pool_id user_id domain_amount
        base_amount now s.pool r (pool_store_self s.pool) hok hdr' hbr' hT hd hb hpos

      exact ⟨le_of_lt g1, le_of_lt g2, by rw [g4]; linarith, g6 ▸ hf0, g6 ▸ hf1,
        fun q hq => ⟨(g8 q hq).1, (g8 q hq).2.trans g5.symm⟩,
        by rw [g7, hsum, g4]⟩
  | removeLiq user_id tokens now =>
    obtain ⟨ht, hT'⟩ := hv
    show Inv (match remove_liquidity (pool_store s.pool) s.positions s.pool.pool_id
        user_id tokens now with
      | .error _ => s
      | .ok r => ⟨r.pool, r.positions⟩)
    cases hok : remove_liquidity (pool_store s.pool) s.positions s.pool.pool_id
        user_id tokens now with
    | error e => exact ⟨hdr, hbr, hT, hf0, hf1, hpos, hsum⟩
    | ok r =>
      obtain ⟨g1, g2, g3, g4, g5, g6, g7, g8⟩ := remove_liquidity_ok_state
        (pool_store s.pool) s.positions s.pool.pool_id user_id tokens now s.pool r
        (pool_store_self s.pool) hok hdr hbr hT' ht hpos hsum
      exact ⟨g1, g2, g3, g6 ▸ hf0, g6 ▸ hf1,
        fun q hq => ⟨(g8 q hq).1, (g8 q hq).2.trans g5.symm⟩,
        by rw [g7, hsum, g4]⟩

/-- Sequence form of `inv_apply_op`. -/
lemma inv_apply_ops : ∀ (ops : List AmmOp) (s : AmmState), Inv s →
    ValidSeq s ops → Inv (apply_ops s ops) := by
  intro ops
  induction ops with
  | nil => intro s hInv _; exact hInv
  | cons op rest ih =>
    intro s hInv hseq
    obtain ⟨h1, h2⟩ : ValidOp s op ∧ ValidSeq (apply_op s op) rest := hseq
    exact ih (apply_op s op) (inv_apply_op s op hInv h1) h2

/-! ## C3: reserves stay non-negative -/

/-- C3 (amended): starting from a well-formed ledger state (non-negative
reserves and supply, fee in `[0,1)`, positions accounting exactly for
the share supply), any sequence of valid mutations — fresh-quote swaps,
positive-amount liquidity additions, and removals (guarded by the
source's position check) — keeps `domain_reserve ≥ 0` and
`base_reserve ≥ 0` (and the share supply non-negative). -/
theorem mutation_sequence_reserves_nonneg (s : AmmState) (ops : List AmmOp)
    (hInv : Inv s) (hseq : ValidSeq s ops) :
    0 ≤ (apply_ops s ops).pool.domain_token_reserve ∧
    0 ≤ (apply_ops s ops).pool.base_token_reserve ∧
    0 ≤ (apply_ops s ops).pool.total_liquidity_tokens := by
  obtain ⟨h1, h2, h3, -⟩ := inv_apply_ops ops s hInv hseq
  exact ⟨h1, h2, h3⟩

/-- Witness for C3: a removal, an addition and a swap on the sample
ledger, each valid in the state it runs in. -/
theorem mutation_sequence_reserves_nonneg_witness :
    0 ≤ (apply_ops sampleState
      [.removeLiq 1 1118 0, .addLiq 2 10 100 0,
        .swap "domain" 10 0]).pool.domain_token_reserve ∧
    0 ≤ (apply_ops sampleState
      [.removeLiq 1 1118 0, .addLiq 2 10 100 0,
        .swap "domain" 10 0]).pool.base_token_reserve ∧
    0 ≤ (apply_ops sampleState
      [.removeLiq 1 1118 0, .addLiq 2 10 100 0,
        .swap "domain" 10 0]).pool.total_liquidity_tokens :=
  mutation_sequence_reserves_nonneg sampleState
    [.removeLiq 1 1118 0, .addLiq 2 10 100 0, .swap "domain" 10 0]
    (by
      refine ⟨by norm_num [sampleState, samplePool], by norm_num [sampleState, samplePool],
        by norm_num [sampleState, samplePool], by norm_num [sampleState, samplePool],
        by norm_num [sampleState, samplePool], ?_, ?_⟩
      · intro p hp
        fin_cases hp
        exact ⟨by norm_num [samplePosition], by norm_num [samplePosition, sampleState, samplePool]⟩
      · norm_num [sum_tokens, sampleState, samplePool, samplePosition])
    (by
      refine ⟨⟨by norm_num, by norm_num [sampleState, samplePool]⟩,
        ⟨by norm_num, by norm_num, ?_, ?_⟩, ⟨by norm_num, ?_, ?_⟩, trivial⟩
      · simp [apply_op, remove_liquidity, pool_store, find_position, position_matches,
          sampleState, samplePool, samplePosition]
        norm_num
      · simp [apply_op, remove_liquidity, pool_store, find_position, position_matches,
          sampleState, samplePool, samplePosition]
        norm_num
      · simp [apply_op, remove_liquidity, add_liquidity, pool_store, find_position,
          position_matches, sampleState, samplePool, samplePosition]
        norm_num
      · simp [apply_op, remove_liquidity, add_liquidity, pool_store, find_position,
          position_matches, sampleState, samplePool, samplePosition]
        norm_num)

/-- C3 counterexample: `execute_trade` performs no reserve check and the
code has no `InsufficientReserves` error at all — executing a quote
issued against the full sample pool after the pool has been drained by a
liquidity removal succeeds (no error is reported) and leaves the base
reserve negative. -/
theorem mutation_sequence_reserves_nonneg_counterexample :
    (execute_trade (pool_store drainedState.pool) "P" sampleDomainQuote 0).isOk = true ∧
    ((execute_trade (pool_store drainedState.pool) "P" sampleDomainQuote 0).toOption.getD
      samplePool).base_token_reserve < 0 := by
  constructor
  · simp [execute_trade, pool_store, drainedState, apply_op, remove_liquidity,
      find_position, position_matches, sampleState, samplePool, samplePosition,
      sampleDomainQuote, get_trade_quote, Except.toOption, Except.isOk, Except.toBool,
      dummyQuote, quote_ttl, slippage_tolerance, price_impact_threshold]
    norm_num [abs_of_nonneg]
  · simp [execute_trade, pool_store, drainedState, apply_op, remove_liquidity,
      find_position, position_matches, sampleState, samplePool, samplePosition,
      sampleDomainQuote, get_trade_quote, Except.toOption, Except.isOk, Except.toBool,
      dummyQuote, quote_ttl, slippage_tolerance, price_impact_threshold]
    norm_num [abs_of_nonneg]

/-! ## C5: pool-creation validation -/

/-- C5 (amended): the only amount validation in `create_liquidity_pool`
is the minimum-liquidity floor on the base amount: any call with
`base_amount` below the floor (in particular any `base_amount ≤ 0`,
since the floor is 1000) fails before anything is stored, and — when the
other validations pass — fails specifically with `InsufficientLiquidity`.
`domain_amount` is not validated: a negative `domain_amount` only fails
later inside the creation block (`math.sqrt` of a negative product, a
generic creation failure, still before anything is stored), and
`domain_amount = 0` passes validation, stores the pool and the creator
position, and only then fails with a generic creation error when the
returned `initial_price` divides by zero. -/
theorem create_liquidity_pool_validation (domains : Nat → Option Bool)
    (existing_pool : Nat → String → Option (LiquidityPool ℝ))
    (domain_id : Nat) (base_token : String) (d b : ℝ) (creator_id : Nat) (now : ℚ) :
    minimum_liquidity = 1000 ∧
    (b < (minimum_liquidity : ℝ) →
      (create_liquidity_pool domains existing_pool domain_id base_token d b
        creator_id now).result.isOk = false ∧
      (create_liquidity_pool domains existing_pool domain_id base_token d b
        creator_id now).stored_pools = [] ∧
      (create_liquidity_pool domains existing_pool domain_id base_token d b
        creator_id now).stored_positions = []) ∧
    (domains domain_id = some true → base_token ∈ supported_base_tokens →
      b < (minimum_liquidity : ℝ) →
      (create_liquidity_pool domains existing_pool domain_id base_token d b
        creator_id now).result = .error .insufficientLiquidity) ∧
    (domains domain_id = some true → base_token ∈ supported_base_tokens →
      ¬ b < (minimum_liquidity : ℝ) → existing_pool domain_id base_token = none →
      d * b < 0 →
      (create_liquidity_pool domains existing_pool domain_id base_token d b
        creator_id now).result = .error .creationFailed ∧
      (create_liquidity_pool domains existing_pool domain_id base_token d b
        creator_id now).stored_pools = []) ∧
    (domains domain_id = some true → base_token ∈ supported_base_tokens →
      ¬ b < (minimum_liquidity : ℝ) → existing_pool domain_id base_token = none →
      ¬ d * b < 0 → d = 0 →
      (create_liquidity_pool domains existing_pool domain_id base_token d b
        creator_id now).result = .error .creationFailed ∧
      (create_liquidity_pool domains existing_pool domain_id base_token d b
        creator_id now).stored_pools.length = 1 ∧
      (create_liquidity_pool domains existing_pool domain_id base_token d b
        creator_id now).stored_positions.length = 1) := by
  refine ⟨rfl, ?_, ?_, ?_, ?_⟩
  · intro hb
    cases hdom : domains domain_id with
    | none => simp [create_liquidity_pool, hdom, Except.isOk, Except.toBool]
    | some tokenized =>
      cases tokenized with
      | false => simp [create_liquidity_pool, hdom, Except.isOk, Except.toBool]
      | true =>
        by_cases hsup : base_token ∈ supported_base_tokens
        · simp [create_liquidity_pool, hdom, hsup, hb, Except.isOk, Except.toBool]
        · simp [create_liquidity_pool, hdom, hsup, Except.isOk, Except.toBool]
  · intro hdom hsup hb
    simp [create_liquidity_pool, hdom, hsup, hb]
  · intro hdom hsup hb hex hdb
    simp [create_liquidity_pool, hdom, hsup, hb, hex, hdb]
  · intro hdom hsup hb hex hdb hd0
    simp [create_liquidity_pool, hdom, hsup, hb, hex, hdb, hd0]

/-- Witness for C5: base amount 500 is below the floor and is rejected
with `InsufficientLiquidity`. -/
theorem create_liquidity_pool_validation_witness :
    (500 : ℝ) < (minimum_liquidity : ℝ) ∧
    (create_liquidity_pool sampleDomains no_pools 1 "USDC" 800 500 7 0).result =
      .error .insufficientLiquidity :=
  have h := create_liquidity_pool_validation sampleDomains no_pools 1 "USDC" 800 500 7 0
  ⟨by norm_num [minimum_liquidity],
    h.2.2.1 rfl (by simp [supported_base_tokens]) (by norm_num [minimum_liquidity])⟩

/-- C5 counterexample: `domain_amount = 0` with a valid base amount is
not rejected by validation — the call stores the pool and the creator
position (each store holds one record) and only afterwards fails with
the generic creation error, not `InsufficientLiquidity`. -/
theorem create_liquidity_pool_validation_counterexample :
    (create_liquidity_pool sampleDomains no_pools 1 "USDC" 0 5000 7 0).result =
      .error .creationFailed ∧
    (create_liquidity_pool sampleDomains no_pools 1 "USDC" 0 5000 7 0).stored_pools.length
      = 1 ∧
    (create_liquidity_pool sampleDomains no_pools 1 "USDC" 0 5000 7 0).stored_positions.length
      = 1 ∧
    AmmError.creationFailed ≠ AmmError.insufficientLiquidity := by
  refine ⟨?_, ?_, ?_, by simp⟩
  all_goals
    simp [create_liquidity_pool, sampleDomains, no_pools, supported_base_tokens,
      minimum_liquidity]
    norm_num

/-! ## C8: worked scenario (pool creation and USDC quote) -/

/-- C8 (amended): creating the pool with `domain=1000`, `base=5000`
mints `sqrt(1000*5000) = sqrt 5000000 ≈ 2236.07` initial shares; a quote
for an input of 1000 USDC (the base token, so the *input* reserve is the
base reserve 5000 and the *output* reserve is the domain reserve 1000)
yields `effective_input = 997` (fee 3 on the gross input), and
`output_amount = 1000 * 997 / (5000 + 997) = 997000/5997 ≈ 166.25`
domain tokens. -/
theorem scenario_create_and_quote :
    (create_liquidity_pool sampleDomains no_pools 1 "USDC" 1000 5000 7 0).result.isOk
      = true ∧
    ((create_liquidity_pool sampleDomains no_pools 1 "USDC" 1000 5000 7
        0).stored_pools.headD dummyPoolR).total_liquidity_tokens = Real.sqrt 5000000 ∧
    2236.06 < Real.sqrt 5000000 ∧ Real.sqrt 5000000 < 2236.07 ∧
    ((get_trade_quote (pool_store samplePool) "P" "USDC" 1000 none 0).toOption.getD
      dummyQuote).fee_amount = 3 ∧
    1000 * (1 - samplePool.fee_rate) = 997 ∧
    ((get_trade_quote (pool_store samplePool) "P" "USDC" 1000 none 0).toOption.getD
      dummyQuote).output_amount = 1000 * 997 / (5000 + 997) ∧
    ((get_trade_quote (pool_store samplePool) "P" "USDC" 1000 none 0).toOption.getD
      dummyQuote).output_amount = 997000 / 5997 ∧
    (166.24 : ℚ) < 997000 / 5997 ∧ (997000 : ℚ) / 5997 < 166.25 := by
  refine ⟨?_, ?_, ?_, ?_, ?_, ?_, ?_, ?_, by norm_num, by norm_num⟩
  · simp [create_liquidity_pool, sampleDomains, no_pools, supported_base_tokens,
      minimum_liquidity, Except.isOk, Except.toBool]
    norm_num
  · simp [create_liquidity_pool, sampleDomains, no_pools, supported_base_tokens,
      minimum_liquidity]
    rw [← Real.sqrt_mul (by norm_num : (0:ℝ) ≤ 1000)]
    norm_num
  · rw [Real.lt_sqrt (by norm_num)]
    norm_num
  · rw [Real.sqrt_lt' (by norm_num)]
    norm_num
  · simp [get_trade_quote, pool_store, samplePool, Except.toOption, dummyQuote,
      slippage_tolerance, quote_ttl]
    norm_num
  · norm_num [samplePool]
  · simp [get_trade_quote, pool_store, samplePool, Except.toOption, dummyQuote,
      slippage_tolerance, quote_ttl]
    norm_num
  · simp [get_trade_quote, pool_store, samplePool, Except.toOption, dummyQuote,
      slippage_tolerance, quote_ttl]
    norm_num

/-- C8 counterexample: the claimed output `5000*997/(1000+997)` plugs the
reserves in backwards for a USDC (base-token) input; the quote's actual
output differs from it. -/
theorem scenario_create_and_quote_counterexample :
    ¬ ((get_trade_quote (pool_store samplePool) "P" "USDC" 1000 none 0).toOption.getD
      dummyQuote).output_amount = 5000 * 997 / (1000 + 997) := by
  simp [get_trade_quote, pool_store, samplePool, Except.toOption, dummyQuote,
    slippage_tolerance, quote_ttl]
  norm_num

/-! ## C9: impermanent loss -/

/-- C9: for strictly positive principal amounts and reserves, the
computed impermanent loss is the percentage form of
`2*sqrt(r)/(1+r) - 1` with
`r = (base_reserve/domain_reserve) / (principal_base/principal_domain)`;
it is always `≤ 0`, vanishes exactly when `r = 1`, and lies strictly
between `-5.72%` and `-5.71%` when the price ratio has doubled
(`r = 2`, the claim's `≈ -5.72%`). -/
theorem impermanent_loss_formula (position : LiquidityPosition ℝ)
    (pool : LiquidityPool ℝ)
    (h1 : 0 < position.initial_domain_amount)
    (h2 : 0 < position.initial_base_amount)
    (h3 : 0 < pool.domain_token_reserve) (h4 : 0 < pool.base_token_reserve) :
    calculate_impermanent_loss position pool =
      (2 * Real.sqrt ((pool.base_token_reserve / pool.domain_token_reserve) /
          (position.initial_base_amount / position.initial_domain_amount)) /
        (1 + (pool.base_token_reserve / pool.domain_token_reserve) /
          (position.initial_base_amount / position.initial_domain_amount)) - 1) * 100 ∧
    calculate_impermanent_loss position pool ≤ 0 ∧
    (calculate_impermanent_loss position pool = 0 ↔
      (pool.base_token_reserve / pool.domain_token_reserve) /
        (position.initial_base_amount / position.initial_domain_amount) = 1) ∧
    ((pool.base_token_reserve / pool.domain_token_reserve) /
        (position.initial_base_amount / position.initial_domain_amount) = 2 →
      -5.72 < calculate_impermanent_loss position pool ∧
      calculate_impermanent_loss position pool < -5.71) := by
  set r := (pool.base_token_reserve / pool.domain_token_reserve) /
    (position.initial_base_amount / position.initial_domain_amount) with hr_def
  have hr : 0 < r := div_pos (div_pos h4 h3) (div_pos h2 h1)
  have hs0 : 0 ≤ Real.sqrt r := Real.sqrt_nonneg r
  have hs2 : Real.sqrt r ^ 2 = r := Real.sq_sqrt hr.le
  have hden : 0 < 1 + r := by linarith
  have hIL : calculate_impermanent_loss position pool =
      (2 * Real.sqrt r / (1 + r) - 1) * 100 := rfl
  have hkey : 2 * Real.sqrt r ≤ 1 + r := by
    nlinarith [sq_nonneg (Real.sqrt r - 1)]
  have hfrac : 2 * Real.sqrt r / (1 + r) ≤ 1 := (div_le_one hden).mpr hkey
  refine ⟨hIL, by rw [hIL]; nlinarith, ?_, ?_⟩
  · rw [hIL]
    constructor
    · intro h
      have h5 : 2 * Real.sqrt r / (1 + r) = 1 := by linarith
      rw [div_eq_one_iff_eq (ne_of_gt hden)] at h5
      have h7 : (Real.sqrt r - 1) ^ 2 = 0 := by nlinarith
      have h8 : Real.sqrt r = 1 := by
        have := sq_eq_zero_iff.mp h7
        linarith [sub_eq_zero.mp this]
      rw [← hs2, h8]
      norm_num
    · intro h
      rw [h]
      norm_num
  · intro h
    rw [hIL, h]
    have hs2a : (1.4142 : ℝ) < Real.sqrt 2 := by
      rw [Real.lt_sqrt (by norm_num)]
      norm_num
    have hs2b : Real.sqrt 2 < 1.41422 := by
      rw [Real.sqrt_lt' (by norm_num)]
      norm_num
    constructor <;> nlinarith

/-- Witness for C9: deposit at price ratio 1, current price ratio 2. -/
theorem impermanent_loss_formula_witness :
    ((0:ℝ) < ilPosition.initial_domain_amount ∧
     (0:ℝ) < ilPosition.initial_base_amount ∧
     (0:ℝ) < ilPool.domain_token_reserve ∧ (0:ℝ) < ilPool.base_token_reserve) ∧
    -5.72 < calculate_impermanent_loss ilPosition ilPool ∧
    calculate_impermanent_loss ilPosition ilPool < -5.71 ∧
    calculate_impermanent_loss ilPosition ilPool ≤ 0 :=
  have h := impermanent_loss_formula ilPosition ilPool
    (by norm_num [ilPosition]) (by norm_num [ilPosition])
    (by norm_num [ilPool]) (by norm_num [ilPool])
  have hr : (ilPool.base_token_reserve / ilPool.domain_token_reserve) /
      (ilPosition.initial_base_amount / ilPosition.initial_domain_amount) = 2 := by
    norm_num [ilPool, ilPosition]
  ⟨⟨by norm_num [ilPosition], by norm_num [ilPosition],
    by norm_num [ilPool], by norm_num [ilPool]⟩,
    (h.2.2.2 hr).1, (h.2.2.2 hr).2, h.2.1⟩

end AMMSpec
